import Mathlib

/-!
# Device connection layer of sonic-ios-bridge (`src/conn/deviceconn.go`)

A shallow embedding of the Go package `conn`: the `DeviceConnection` struct with
its two handle slots, the socket dial, the TLS upgrade and the accessors.

Everything the Go code obtains from outside (the host OS name, the result of a
dial, of parsing a key pair, of a handshake, of a write, of a close) is read from
an environment `Env`; every external operation the code performs is appended to
the trace of the `World`, so that "what was dialled / written / closed" can be
stated.  A method takes the receiver and the world and returns a `Res`: either
the returned value with the receiver and world after the call, or a Go panic.
-/

namespace Conn

/-! ## Go values -/

/-- A byte slice; only its length is ever inspected. -/
abbrev Bytes := List Nat

/-- Modelled from the spec: the error kinds `tool.ErrConnect` and
`tool.ErrUnknown` of package `tool`, whose source is not part of `src/`; the spec
names a connect error and a close error, the values behind the names are not
used. -/
inductive ToolErr
  | ErrUnknown
  | ErrConnect
  deriving DecidableEq, Repr

/-- A non-nil Go `error` value. -/
inductive GoError
  /-- an error produced by the standard library (`net`, `crypto/tls`) -/
  | lib (msg : String)
  /-- the value of `fmt.Errorf` with the formatted message -/
  | errorf (msg : String)
  /-- the value of `tool.NewErrorPrint(kind, name, cause)` -/
  | errorPrint (kind : ToolErr) (name : String) (cause : GoError)
  deriving DecidableEq, Repr

/-- Modelled from the spec: `tool.NewErrorPrint` of package `tool`, whose source
is not part of `src/`.  The spec describes its results as typed errors that
identify the failing subsystem and wrap the underlying error; the result is kept
as that triple. -/
def NewErrorPrint (kind : ToolErr) (name : String) (cause : GoError) : GoError :=
  GoError.errorPrint kind name cause

/-- A parsed `tls.Certificate`, as returned by `tls.X509KeyPair`. -/
structure Certificate where
  certPEMBlock : Bytes
  keyPEMBlock : Bytes
  deriving DecidableEq, Repr

/-- `tls.VersionTLS11`. -/
def VersionTLS11 : Nat := 0x0302

/-- `tls.VersionTLS13`. -/
def VersionTLS13 : Nat := 0x0304

/-- `tls.ClientAuthType`; only `tls.NoClientCert` occurs. -/
inductive ClientAuthType
  | NoClientCert
  deriving DecidableEq, Repr

/-- The fields of `tls.Config` the source sets.  A `uint16` version field that a
composite literal leaves out is the zero value `0`. -/
structure TlsConfig where
  InsecureSkipVerify : Bool
  Certificates : List Certificate
  ClientAuth : ClientAuthType
  MinVersion : Nat := 0
  MaxVersion : Nat := 0
  deriving DecidableEq, Repr

/-- A value of the interface type `net.Conn`: nil, the connection object a dial
returned, or the `*tls.Conn` that `tls.Client(transport, conf)` built.  `id` is
the identity of the object (two objects built alike are still two objects). -/
inductive NetConn
  | nil
  | sock (id : Nat) (network address : String)
  | tlsClient (id : Nat) (transport : NetConn) (conf : TlsConfig)
  deriving DecidableEq, Repr

/-- Modelled from the spec: the type `PairRecord`, declared outside of
`deviceconn.go`; the spec describes it as a host certificate and a host private
key, the two fields `createTLSClient` reads. -/
structure PairRecord where
  HostCertificate : Bytes
  HostPrivateKey : Bytes
  deriving DecidableEq, Repr

/-! ## The outside world -/

/-- An operation performed outside of the package. -/
inductive Event
  /-- `net.Dialer{Timeout: timeout}.Dial(network, address)` -/
  | dial (timeout : Nat) (network address : String)
  /-- `c.Handshake()` on the TLS client `c` -/
  | handshake (c : NetConn)
  /-- `c.Write(bytes)` -/
  | write (c : NetConn) (bytes : Bytes)
  /-- `c.Close()` -/
  | close (c : NetConn)
  deriving DecidableEq, Repr

/-- What a call of `Handshake` does: returns nil, returns an error, or panics
inside the library (a TLS client built over a nil transport). -/
inductive HandshakeResult
  | done
  | failed (err : GoError)
  | panicked
  deriving DecidableEq, Repr

/-- The environment: the results of the external operations.  Each may depend on
everything that happened before (the trace). -/
structure Env where
  /-- `runtime.GOOS` -/
  GOOS : String
  /-- the error of a dial, `none` when the dial succeeds -/
  Dial : List Event → Nat → String → String → Option GoError
  /-- `tls.X509KeyPair` -/
  X509KeyPair : Bytes → Bytes → Except GoError Certificate
  /-- `(*tls.Conn).Handshake` -/
  Handshake : List Event → NetConn → HandshakeResult
  /-- `Write`: the number of bytes written and the error -/
  Write : List Event → NetConn → Bytes → Nat × Option GoError
  /-- `Close`: the error -/
  Close : List Event → NetConn → Option GoError

/-- The world outside the receiver: the external operations performed so far,
oldest first, and the identity the next connection object will get. -/
structure World where
  trace : List Event
  nextId : Nat
  deriving DecidableEq, Repr

/-- Record one external operation. -/
def World.emit (w : World) (e : Event) : World :=
  { w with trace := w.trace ++ [e] }

/-- Hand out the identity of a new connection object. -/
def World.alloc (w : World) : World :=
  { w with nextId := w.nextId + 1 }

/-! ## The package -/

/-- `DeviceConnectTimeout = 1 * time.Minute`, in nanoseconds. -/
def DeviceConnectTimeout : Nat := 1 * 60000000000

/-- `TcpSocketAddress`. -/
def TcpSocketAddress : String := "127.0.0.1:27015"

/-- `UnixSocketAddress`. -/
def UnixSocketAddress : String := "/var/run/usbmuxd"

/-- `type DeviceConnection struct`. -/
structure DeviceConnection where
  /-- SSL -/
  sslConnect : NetConn := NetConn.nil
  /-- no SSL -/
  unencryptedConnect : NetConn := NetConn.nil
  deriving DecidableEq, Repr

/-- The outcome of a method call on a `*DeviceConnection`. -/
inductive Res (α : Type)
  /-- the call returned `val` -/
  | ret (val : α) (conn : DeviceConnection) (w : World)
  /-- the call panicked -/
  | panic (conn : DeviceConnection) (w : World)
  deriving DecidableEq, Repr

/-- The receiver after the call. -/
def Res.conn {α : Type} : Res α → DeviceConnection
  | Res.ret _ c _ => c
  | Res.panic c _ => c

/-- The world after the call. -/
def Res.world {α : Type} : Res α → World
  | Res.ret _ _ w => w
  | Res.panic _ w => w

/-- `func (conn *DeviceConnection) DisableSessionSSL()`. -/
def DisableSessionSSL (conn : DeviceConnection) (w : World) : Res Unit :=
  if conn.sslConnect ≠ NetConn.nil then
    Res.ret () { conn with sslConnect := NetConn.nil } w
  else
    Res.ret () conn w

/-- `func (conn *DeviceConnection) createTLSClient(version []int, pairRecord PairRecord)
(*tls.Conn, error)`. -/
def createTLSClient (env : Env) (conn : DeviceConnection) (w : World)
    (version : List Int) (pairRecord : PairRecord) : Res (NetConn × Option GoError) :=
  let minVersion0 := VersionTLS11
  let maxVersion0 := VersionTLS11
  let (minVersion, maxVersion) :=
    if version.length > 0 ∧ version.headD 0 > 10 then (VersionTLS11, VersionTLS13)
    else (minVersion0, maxVersion0)
  match env.X509KeyPair pairRecord.HostCertificate pairRecord.HostPrivateKey with
  | Except.error err => Res.ret (NetConn.nil, some err) conn w
  | Except.ok cert5 =>
    let conf : TlsConfig :=
      if version.length > 0 then
        { InsecureSkipVerify := true
          Certificates := [cert5]
          ClientAuth := ClientAuthType.NoClientCert
          MinVersion := minVersion
          MaxVersion := maxVersion }
      else
        { InsecureSkipVerify := true
          Certificates := [cert5]
          ClientAuth := ClientAuthType.NoClientCert }
    let tlsConn := NetConn.tlsClient w.nextId conn.sslConnect conf
    let w1 := w.alloc
    -- err = tlsConn.Handshake()
    match env.Handshake w1.trace tlsConn with
    | HandshakeResult.panicked => Res.panic conn (w1.emit (Event.handshake tlsConn))
    | _ =>
      let w2 := w1.emit (Event.handshake tlsConn)
      -- if err = tlsConn.Handshake(); err != nil
      match env.Handshake w2.trace tlsConn with
      | HandshakeResult.panicked => Res.panic conn (w2.emit (Event.handshake tlsConn))
      | HandshakeResult.failed err => Res.ret (NetConn.nil, some err) conn (w2.emit (Event.handshake tlsConn))
      | HandshakeResult.done => Res.ret (tlsConn, none) conn (w2.emit (Event.handshake tlsConn))

/-- `func (conn *DeviceConnection) EnableSessionSSL(pairRecord PairRecord) error`. -/
def EnableSessionSSL (env : Env) (conn : DeviceConnection) (w : World)
    (pairRecord : PairRecord) : Res (Option GoError) :=
  match createTLSClient env conn w [] pairRecord with
  | Res.panic c w1 => Res.panic c w1
  | Res.ret (_, some err) c w1 => Res.ret (some err) c w1
  | Res.ret (tlsConn, none) c w1 =>
    let c1 := { c with unencryptedConnect := c.sslConnect }
    let c2 := { c1 with sslConnect := tlsConn }
    Res.ret none c2 w1

/-- `func (conn *DeviceConnection) EnableSessionSSLWithVersion(version []int,
pairRecord PairRecord) error`. -/
def EnableSessionSSLWithVersion (env : Env) (conn : DeviceConnection) (w : World)
    (version : List Int) (pairRecord : PairRecord) : Res (Option GoError) :=
  match createTLSClient env conn w version pairRecord with
  | Res.panic c w1 => Res.panic c w1
  | Res.ret (_, some err) c w1 => Res.ret (some err) c w1
  | Res.ret (tlsConn, none) c w1 =>
    let c1 := { c with unencryptedConnect := c.sslConnect }
    let c2 := { c1 with sslConnect := tlsConn }
    Res.ret none c2 w1

/-- `func (conn *DeviceConnection) Reader() io.Reader`. -/
def Reader (conn : DeviceConnection) : NetConn :=
  conn.sslConnect

/-- `func (conn *DeviceConnection) Writer() io.Writer`. -/
def Writer (conn : DeviceConnection) : NetConn :=
  conn.sslConnect

/-- `func (conn *DeviceConnection) GetConn() net.Conn`. -/
def GetConn (conn : DeviceConnection) : NetConn :=
  if conn.sslConnect ≠ NetConn.nil then
    conn.sslConnect
  else
    conn.unencryptedConnect

/-- `func (conn *DeviceConnection) Close() error`. -/
def Close (env : Env) (conn : DeviceConnection) (w : World) : Res (Option GoError) :=
  if conn.sslConnect ≠ NetConn.nil then
    match env.Close w.trace conn.sslConnect with
    | some err =>
      Res.ret (some (NewErrorPrint ToolErr.ErrUnknown "" err)) conn
        (w.emit (Event.close conn.sslConnect))
    | none => Res.ret none conn (w.emit (Event.close conn.sslConnect))
  else
    Res.ret none conn w

/-- `func (conn *DeviceConnection) Send(bytes []byte) error`.  Calling `Write`
on a nil interface value panics. -/
def Send (env : Env) (conn : DeviceConnection) (w : World) (bytes : Bytes) :
    Res (Option GoError) :=
  if conn.sslConnect = NetConn.nil then
    Res.panic conn w
  else
    let (n, err) := env.Write w.trace conn.sslConnect bytes
    let w1 := w.emit (Event.write conn.sslConnect bytes)
    -- the value of this `fmt.Errorf` is dropped by the source
    let _dropped : Option GoError :=
      if n < bytes.length then
        some (GoError.errorf ("failed writing " ++ toString n ++ " bytes"))
      else none
    match err with
    | some e =>
      match Close env conn w1 with
      | Res.ret _ c w2 => Res.ret (some e) c w2
      | Res.panic c w2 => Res.panic c w2
    | none => Res.ret none conn w1

/-- `func (conn *DeviceConnection) connectSocket() error`. -/
def connectSocket (env : Env) (conn : DeviceConnection) (w : World) : Res (Option GoError) :=
  let target : Except GoError (String × String) :=
    if env.GOOS = "windows" then
      Except.ok ("tcp", TcpSocketAddress)
    else if env.GOOS = "darwin" ∨ env.GOOS = "android" ∨ env.GOOS = "linux" then
      Except.ok ("unix", UnixSocketAddress)
    else
      Except.error (GoError.errorf
        ("unsupported system: " ++ env.GOOS ++
          ", please report to https://github.com/SonicCloudOrg/sonic-ios-bridge"))
  match target with
  | Except.error e => Res.ret (some e) conn w
  | Except.ok (network, address) =>
    let w1 := w.emit (Event.dial DeviceConnectTimeout network address)
    match env.Dial w.trace DeviceConnectTimeout network address with
    | some err => Res.ret (some (NewErrorPrint ToolErr.ErrConnect "socket" err)) conn w1
    | none =>
      let c := NetConn.sock w1.nextId network address
      Res.ret none { conn with sslConnect := c } w1.alloc

/-- `func NewDeviceConnection() (*DeviceConnection, error)`: the returned pointer
is the receiver of the result, the returned error its value. -/
def NewDeviceConnection (env : Env) (w : World) : Res (Option GoError) :=
  let conn : DeviceConnection := {}
  connectSocket env conn w

/-! ## Observations used to state the properties -/

/-- The configuration `createTLSClient` builds for a version preference and a
parsed certificate, by cases on the preference (proved equal to what
`createTLSClient` hands to `tls.Client` in `createTLSClient_eq`). -/
def handshakeConfig (version : List Int) (cert5 : Certificate) : TlsConfig :=
  match version with
  | [] =>
    { InsecureSkipVerify := true, Certificates := [cert5],
      ClientAuth := ClientAuthType.NoClientCert, MinVersion := 0, MaxVersion := 0 }
  | v :: _ =>
    if v > 10 then
      { InsecureSkipVerify := true, Certificates := [cert5],
        ClientAuth := ClientAuthType.NoClientCert,
        MinVersion := VersionTLS11, MaxVersion := VersionTLS13 }
    else
      { InsecureSkipVerify := true, Certificates := [cert5],
        ClientAuth := ClientAuthType.NoClientCert,
        MinVersion := VersionTLS11, MaxVersion := VersionTLS11 }

/-- Every connection object inside `c` was created before the counter reached `n`. -/
def NetConn.allocatedBefore : NetConn → Nat → Bool
  | NetConn.nil, _ => true
  | NetConn.sock id _ _, n => decide (id < n)
  | NetConn.tlsClient id transport _, n => decide (id < n) && transport.allocatedBefore n

/-- A call of one of the methods that neither upgrade nor downgrade the session. -/
inductive Call
  | GetConn
  | Reader
  | Writer
  | Send (bytes : Bytes)
  | Close
  deriving DecidableEq, Repr

/-- What such a call returns: a handle (for the three accessors) or an error
value (for `Send` and `Close`). -/
inductive Val
  | handle (c : NetConn)
  | error (e : Option GoError)
  deriving DecidableEq, Repr

/-- Perform one call. -/
def Call.exec (env : Env) (conn : DeviceConnection) (w : World) : Call → Res Val
  | Call.GetConn => Res.ret (Val.handle (Conn.GetConn conn)) conn w
  | Call.Reader => Res.ret (Val.handle (Conn.Reader conn)) conn w
  | Call.Writer => Res.ret (Val.handle (Conn.Writer conn)) conn w
  | Call.Send bytes =>
    match Conn.Send env conn w bytes with
    | Res.ret e c w1 => Res.ret (Val.error e) c w1
    | Res.panic c w1 => Res.panic c w1
  | Call.Close =>
    match Conn.Close env conn w with
    | Res.ret e c w1 => Res.ret (Val.error e) c w1
    | Res.panic c w1 => Res.panic c w1

/-- Perform a sequence of calls, stopping at a panic: the values returned so far
and the state reached. -/
def runCalls (env : Env) : List Call → DeviceConnection → World → List Val × Res Unit
  | [], conn, w => ([], Res.ret () conn w)
  | c :: cs, conn, w =>
    match c.exec env conn w with
    | Res.panic c1 w1 => ([], Res.panic c1 w1)
    | Res.ret v c1 w1 => (v :: (runCalls env cs c1 w1).1, (runCalls env cs c1 w1).2)

/-! ## Concrete environments -/

/-- A Linux host on which the dial, the key pair, the handshake (over a non-nil
transport), every write and every close succeed. -/
def envLinux : Env where
  GOOS := "linux"
  Dial := fun _ _ _ _ => none
  X509KeyPair := fun c k => Except.ok { certPEMBlock := c, keyPEMBlock := k }
  Handshake := fun _ c =>
    match c with
    | NetConn.tlsClient _ NetConn.nil _ => HandshakeResult.panicked
    | _ => HandshakeResult.done
  Write := fun _ _ bytes => (bytes.length, none)
  Close := fun _ _ => none

/-- The empty world a process starts in. -/
def world0 : World := { trace := [], nextId := 0 }

/-- A pairing record. -/
def pairRecord0 : PairRecord := { HostCertificate := [1, 2], HostPrivateKey := [3] }

/-- As `envLinux`, on a Windows host. -/
def envWindows : Env := { envLinux with GOOS := "windows" }

/-- As `envLinux`, on a host whose OS the package does not know. -/
def envPlan9 : Env := { envLinux with GOOS := "plan9" }

/-- As `envLinux`, but nothing listens on the socket. -/
def envRefused : Env :=
  { envLinux with Dial := fun _ _ _ _ => some (GoError.lib "connection refused") }

/-- As `envLinux`, but the key pair does not parse. -/
def envBadKey : Env :=
  { envLinux with X509KeyPair := fun _ _ => Except.error (GoError.lib "tls: failed to find any PEM data") }

/-- As `envLinux`, but the peer rejects every handshake. -/
def envRejected : Env :=
  { envLinux with Handshake := fun _ _ => HandshakeResult.failed (GoError.lib "remote error: tls: handshake failure") }

/-- As `envLinux`, but every write fails without writing a byte. -/
def envBrokenPipe : Env :=
  { envLinux with Write := fun _ _ _ => (0, some (GoError.lib "broken pipe")) }

/-- As `envLinux`, but closing fails. -/
def envCloseFails : Env :=
  { envLinux with Close := fun _ _ => some (GoError.lib "use of closed network connection") }

/-- The handle a dial on `envLinux` returns in `world0`. -/
def sock0 : NetConn := NetConn.sock 0 "unix" "/var/run/usbmuxd"

/-- The session right after a successful open on `envLinux`. -/
def connOpened : DeviceConnection := { sslConnect := sock0, unencryptedConnect := NetConn.nil }

/-- The world right after a successful open on `envLinux`. -/
def worldOpened : World :=
  { trace := [Event.dial DeviceConnectTimeout "unix" "/var/run/usbmuxd"], nextId := 1 }

/-- The certificate `envLinux` parses out of `pairRecord0`. -/
def cert0 : Certificate := { certPEMBlock := [1, 2], keyPEMBlock := [3] }

/-- The TLS client an upgrade with preference `[11]` builds over `sock0`. -/
def tls1 : NetConn := NetConn.tlsClient 1 sock0 (handshakeConfig [11] cert0)

/-- The session after open and a successful upgrade with preference `[11]`. -/
def connUpgraded : DeviceConnection := { sslConnect := tls1, unencryptedConnect := sock0 }

/-- The world after open and that upgrade. -/
def worldUpgraded : World :=
  { trace := [Event.dial DeviceConnectTimeout "unix" "/var/run/usbmuxd",
      Event.handshake tls1, Event.handshake tls1],
    nextId := 2 }

/-- The session after open, upgrade and `DisableSessionSSL`. -/
def connDowngraded : DeviceConnection :=
  { sslConnect := NetConn.nil, unencryptedConnect := sock0 }

/-- The contract of `io.Writer`: "Write must return a non-nil error if it returns
n < len(p)".  The values the package stores in `sslConnect`, the connection a dial
returned and a `*tls.Conn`, are such writers. -/
def Env.WriterContract (env : Env) : Prop :=
  ∀ (tr : List Event) (c : NetConn) (bytes : Bytes),
    (env.Write tr c bytes).1 < bytes.length → (env.Write tr c bytes).2 ≠ none

/-- The connection objects a `Close()` on `c` closes: `c` itself and, for a
`*tls.Conn`, the connection it was built over, which `(*tls.Conn).Close` closes in
turn. -/
def NetConn.closedWith : NetConn → List NetConn
  | NetConn.nil => []
  | NetConn.sock id network address => [NetConn.sock id network address]
  | NetConn.tlsClient id transport conf =>
    NetConn.tlsClient id transport conf :: transport.closedWith

/-- The slots hold objects created before now, and a secure handle is another
object than the previous handle. -/
def WellFormed (conn : DeviceConnection) (w : World) : Prop :=
  conn.sslConnect.allocatedBefore w.nextId = true
  ∧ conn.unencryptedConnect.allocatedBefore w.nextId = true
  ∧ (conn.sslConnect ≠ NetConn.nil → conn.sslConnect ≠ conn.unencryptedConnect)

/-! ## Shared lemmas -/

/-- An object created before `n` was created before any later `m`. -/
theorem allocatedBefore_mono (c : NetConn) (n m : Nat) (hnm : n ≤ m)
    (h : c.allocatedBefore n = true) : c.allocatedBefore m = true := by
  induction c with
  | nil => rfl
  | sock id network address =>
    simp only [NetConn.allocatedBefore, decide_eq_true_eq] at h ⊢
    omega
  | tlsClient id transport conf ih =>
    simp only [NetConn.allocatedBefore, Bool.and_eq_true, decide_eq_true_eq] at h ⊢
    exact ⟨by omega, ih h.2⟩

/-- A TLS client is never the transport it was built over. -/
theorem tlsClient_ne_transport (id : Nat) (t : NetConn) (conf : TlsConfig) :
    NetConn.tlsClient id t conf ≠ t := by
  intro h
  have hs := congrArg sizeOf h
  simp at hs
  omega

/-- A new object is none of the objects created before it. -/
theorem tlsClient_ne_of_allocatedBefore (n : Nat) (t c : NetConn) (conf : TlsConfig)
    (hc : c.allocatedBefore n = true) : NetConn.tlsClient n t conf ≠ c := by
  intro h
  subst h
  simp [NetConn.allocatedBefore] at hc

/-- `EnableSessionSSL` is `EnableSessionSSLWithVersion` on the empty preference. -/
theorem EnableSessionSSL_eq (env : Env) (conn : DeviceConnection) (w : World)
    (pairRecord : PairRecord) :
    EnableSessionSSL env conn w pairRecord
      = EnableSessionSSLWithVersion env conn w [] pairRecord := rfl

/-- Once the key pair has parsed, `createTLSClient` builds the client over the
secure slot with the configuration `handshakeConfig` and shakes hands twice. -/
theorem createTLSClient_eq (env : Env) (conn : DeviceConnection) (w : World)
    (version : List Int) (pairRecord : PairRecord) (cert5 : Certificate)
    (hk : env.X509KeyPair pairRecord.HostCertificate pairRecord.HostPrivateKey
      = Except.ok cert5) :
    createTLSClient env conn w version pairRecord
      = match env.Handshake w.trace
            (NetConn.tlsClient w.nextId conn.sslConnect (handshakeConfig version cert5)) with
        | HandshakeResult.panicked =>
          Res.panic conn
            { trace := w.trace ++ [Event.handshake
                (NetConn.tlsClient w.nextId conn.sslConnect (handshakeConfig version cert5))],
              nextId := w.nextId + 1 }
        | _ =>
          match env.Handshake (w.trace ++ [Event.handshake
              (NetConn.tlsClient w.nextId conn.sslConnect (handshakeConfig version cert5))])
              (NetConn.tlsClient w.nextId conn.sslConnect (handshakeConfig version cert5)) with
          | HandshakeResult.panicked =>
            Res.panic conn
              { trace := w.trace ++ [Event.handshake
                  (NetConn.tlsClient w.nextId conn.sslConnect (handshakeConfig version cert5)),
                  Event.handshake
                  (NetConn.tlsClient w.nextId conn.sslConnect (handshakeConfig version cert5))],
                nextId := w.nextId + 1 }
          | HandshakeResult.failed err =>
            Res.ret (NetConn.nil, some err) conn
              { trace := w.trace ++ [Event.handshake
                  (NetConn.tlsClient w.nextId conn.sslConnect (handshakeConfig version cert5)),
                  Event.handshake
                  (NetConn.tlsClient w.nextId conn.sslConnect (handshakeConfig version cert5))],
                nextId := w.nextId + 1 }
          | HandshakeResult.done =>
            Res.ret
              (NetConn.tlsClient w.nextId conn.sslConnect (handshakeConfig version cert5), none)
              conn
              { trace := w.trace ++ [Event.handshake
                  (NetConn.tlsClient w.nextId conn.sslConnect (handshakeConfig version cert5)),
                  Event.handshake
                  (NetConn.tlsClient w.nextId conn.sslConnect (handshakeConfig version cert5))],
                nextId := w.nextId + 1 } := by
  rcases version with _ | ⟨v, vs⟩
  · simp [createTLSClient, hk, handshakeConfig, World.alloc, World.emit]
  · by_cases hv : v > 10
    · simp [createTLSClient, hk, handshakeConfig, World.alloc, World.emit, hv]
    · simp [createTLSClient, hk, handshakeConfig, World.alloc, World.emit, hv]

/-- The four ways an upgrade can go once the key pair has parsed, and the one way
it goes when it has not. -/
theorem EnableSessionSSLWithVersion_cases (env : Env) (conn : DeviceConnection) (w : World)
    (version : List Int) (pairRecord : PairRecord) :
    (∃ e, env.X509KeyPair pairRecord.HostCertificate pairRecord.HostPrivateKey = Except.error e
        ∧ EnableSessionSSLWithVersion env conn w version pairRecord = Res.ret (some e) conn w)
    ∨ ∃ cert5, env.X509KeyPair pairRecord.HostCertificate pairRecord.HostPrivateKey
          = Except.ok cert5
        ∧ ((env.Handshake w.trace
              (NetConn.tlsClient w.nextId conn.sslConnect (handshakeConfig version cert5))
              = HandshakeResult.panicked
            ∧ EnableSessionSSLWithVersion env conn w version pairRecord
              = Res.panic conn
                  { trace := w.trace ++ [Event.handshake
                      (NetConn.tlsClient w.nextId conn.sslConnect (handshakeConfig version cert5))],
                    nextId := w.nextId + 1 })
          ∨ (env.Handshake (w.trace ++ [Event.handshake
                (NetConn.tlsClient w.nextId conn.sslConnect (handshakeConfig version cert5))])
              (NetConn.tlsClient w.nextId conn.sslConnect (handshakeConfig version cert5))
              = HandshakeResult.panicked
            ∧ EnableSessionSSLWithVersion env conn w version pairRecord
              = Res.panic conn
                  { trace := w.trace ++ [Event.handshake
                      (NetConn.tlsClient w.nextId conn.sslConnect (handshakeConfig version cert5)),
                      Event.handshake
                      (NetConn.tlsClient w.nextId conn.sslConnect (handshakeConfig version cert5))],
                    nextId := w.nextId + 1 })
          ∨ (∃ e, env.Handshake (w.trace ++ [Event.handshake
                (NetConn.tlsClient w.nextId conn.sslConnect (handshakeConfig version cert5))])
              (NetConn.tlsClient w.nextId conn.sslConnect (handshakeConfig version cert5))
              = HandshakeResult.failed e
            ∧ EnableSessionSSLWithVersion env conn w version pairRecord
              = Res.ret (some e) conn
                  { trace := w.trace ++ [Event.handshake
                      (NetConn.tlsClient w.nextId conn.sslConnect (handshakeConfig version cert5)),
                      Event.handshake
                      (NetConn.tlsClient w.nextId conn.sslConnect (handshakeConfig version cert5))],
                    nextId := w.nextId + 1 })
          ∨ (env.Handshake w.trace
                (NetConn.tlsClient w.nextId conn.sslConnect (handshakeConfig version cert5))
              ≠ HandshakeResult.panicked
            ∧ env.Handshake (w.trace ++ [Event.handshake
                (NetConn.tlsClient w.nextId conn.sslConnect (handshakeConfig version cert5))])
              (NetConn.tlsClient w.nextId conn.sslConnect (handshakeConfig version cert5))
              = HandshakeResult.done
            ∧ EnableSessionSSLWithVersion env conn w version pairRecord
              = Res.ret none
                  { sslConnect :=
                      NetConn.tlsClient w.nextId conn.sslConnect (handshakeConfig version cert5),
                    unencryptedConnect := conn.sslConnect }
                  { trace := w.trace ++ [Event.handshake
                      (NetConn.tlsClient w.nextId conn.sslConnect (handshakeConfig version cert5)),
                      Event.handshake
                      (NetConn.tlsClient w.nextId conn.sslConnect (handshakeConfig version cert5))],
                    nextId := w.nextId + 1 })) := by
  cases hk : env.X509KeyPair pairRecord.HostCertificate pairRecord.HostPrivateKey with
  | error e =>
    left
    exact ⟨e, rfl, by simp [EnableSessionSSLWithVersion, createTLSClient, hk]⟩
  | ok cert5 =>
    right
    refine ⟨cert5, rfl, ?_⟩
    rw [EnableSessionSSLWithVersion, createTLSClient_eq env conn w version pairRecord cert5 hk]
    cases h1 : env.Handshake w.trace
        (NetConn.tlsClient w.nextId conn.sslConnect (handshakeConfig version cert5)) <;>
      cases h2 : env.Handshake (w.trace ++ [Event.handshake
          (NetConn.tlsClient w.nextId conn.sslConnect (handshakeConfig version cert5))])
          (NetConn.tlsClient w.nextId conn.sslConnect (handshakeConfig version cert5)) <;>
      simp

/-- `Close` always returns, leaves both slots as they are and performs at most
the close of the secure slot. -/
theorem Close_eq (env : Env) (conn : DeviceConnection) (w : World) :
    (conn.sslConnect = NetConn.nil ∧ Close env conn w = Res.ret none conn w)
    ∨ (conn.sslConnect ≠ NetConn.nil
        ∧ Close env conn w
          = Res.ret ((env.Close w.trace conn.sslConnect).map
                (NewErrorPrint ToolErr.ErrUnknown ""))
              conn { trace := w.trace ++ [Event.close conn.sslConnect], nextId := w.nextId }) := by
  by_cases h : conn.sslConnect = NetConn.nil
  · left
    exact ⟨h, by simp [Close, h]⟩
  · right
    refine ⟨h, ?_⟩
    cases hc : env.Close w.trace conn.sslConnect <;> simp [Close, h, hc, World.emit]

/-- `Close` does not touch the slots. -/
theorem Close_conn (env : Env) (conn : DeviceConnection) (w : World) :
    (Close env conn w).conn = conn := by
  rcases Close_eq env conn w with ⟨_, h⟩ | ⟨_, h⟩ <;> simp [h, Res.conn]

/-- `Send` does not touch the slots. -/
theorem Send_conn (env : Env) (conn : DeviceConnection) (w : World) (bytes : Bytes) :
    (Send env conn w bytes).conn = conn := by
  by_cases h : conn.sslConnect = NetConn.nil
  · simp [Send, h, Res.conn]
  · cases hw : (env.Write w.trace conn.sslConnect bytes).2 with
    | none => simp [Send, h, hw, Res.conn]
    | some e =>
      rcases Close_eq env conn (w.emit (Event.write conn.sslConnect bytes)) with ⟨_, hc⟩ | ⟨_, hc⟩ <;>
        simp [Send, h, hw, hc, Res.conn]

/-- One call of an accessor, of `Send` or of `Close` does not touch the slots, and
an accessor returns the secure slot when it is not nil. -/
theorem Call.exec_conn (env : Env) (conn : DeviceConnection) (w : World) (c : Call) :
    (c.exec env conn w).conn = conn
    ∧ ∀ v c1 w1, c.exec env conn w = Res.ret v c1 w1 →
        ∀ x, v = Val.handle x → conn.sslConnect ≠ NetConn.nil → x = conn.sslConnect := by
  cases c with
  | GetConn =>
    refine ⟨rfl, ?_⟩
    intro v c1 w1 h x hx hs
    simp only [Call.exec, Res.ret.injEq] at h
    rw [← h.1] at hx
    simp only [Val.handle.injEq] at hx
    simp [← hx, Conn.GetConn, hs]
  | Reader =>
    refine ⟨rfl, ?_⟩
    intro v c1 w1 h x hx _
    simp only [Call.exec, Res.ret.injEq] at h
    rw [← h.1] at hx
    simp only [Val.handle.injEq] at hx
    simp [← hx, Conn.Reader]
  | Writer =>
    refine ⟨rfl, ?_⟩
    intro v c1 w1 h x hx _
    simp only [Call.exec, Res.ret.injEq] at h
    rw [← h.1] at hx
    simp only [Val.handle.injEq] at hx
    simp [← hx, Conn.Writer]
  | Send bytes =>
    have hc := Send_conn env conn w bytes
    constructor
    · cases hs : Conn.Send env conn w bytes <;> simp [Call.exec, hs, Res.conn] at hc ⊢ <;> exact hc
    · intro v c1 w1 h x hx _
      cases hs : Conn.Send env conn w bytes <;> simp [Call.exec, hs] at h
      rw [← h.1] at hx
      cases hx
  | Close =>
    have hc := Close_conn env conn w
    constructor
    · cases hs : Conn.Close env conn w <;> simp [Call.exec, hs, Res.conn] at hc ⊢ <;> exact hc
    · intro v c1 w1 h x hx _
      cases hs : Conn.Close env conn w <;> simp [Call.exec, hs] at h
      rw [← h.1] at hx
      cases hx

/-- A sequence of such calls does not touch the slots, and every handle an
accessor returns on the way is the secure slot when that is not nil. -/
theorem runCalls_conn (env : Env) (calls : List Call) (conn : DeviceConnection) (w : World) :
    (runCalls env calls conn w).2.conn = conn
    ∧ ∀ v ∈ (runCalls env calls conn w).1, ∀ x, v = Val.handle x →
        conn.sslConnect ≠ NetConn.nil → x = conn.sslConnect := by
  induction calls generalizing w with
  | nil => simp [runCalls, Res.conn]
  | cons c cs ih =>
    have hc := Call.exec_conn env conn w c
    cases he : c.exec env conn w with
    | panic c1 w1 =>
      rw [he] at hc
      simp only [Res.conn] at hc
      simp [runCalls, he, Res.conn, hc.1]
    | ret v c1 w1 =>
      rw [he] at hc
      simp only [Res.conn] at hc
      have h1 : c1 = conn := hc.1
      subst h1
      simp only [runCalls, he]
      refine ⟨(ih w1).1, ?_⟩
      intro v' hv' x hx hs
      rcases List.mem_cons.mp hv' with h | h
      · subst h
        exact hc.2 v' c1 w1 rfl x hx hs
      · exact (ih w1).2 v' h x hx hs

/-- A successful upgrade installs a TLS client built over the old secure slot and
keeps the old secure slot as the previous handle. -/
theorem EnableSessionSSLWithVersion_success (env : Env) (conn : DeviceConnection) (w : World)
    (version : List Int) (pairRecord : PairRecord) (conn1 : DeviceConnection) (w1 : World)
    (h : EnableSessionSSLWithVersion env conn w version pairRecord = Res.ret none conn1 w1) :
    ∃ cert5, env.X509KeyPair pairRecord.HostCertificate pairRecord.HostPrivateKey
        = Except.ok cert5
      ∧ conn1 = { sslConnect :=
                    NetConn.tlsClient w.nextId conn.sslConnect (handshakeConfig version cert5),
                  unencryptedConnect := conn.sslConnect }
      ∧ w1 = { trace := w.trace ++ [Event.handshake
                  (NetConn.tlsClient w.nextId conn.sslConnect (handshakeConfig version cert5)),
                  Event.handshake
                  (NetConn.tlsClient w.nextId conn.sslConnect (handshakeConfig version cert5))],
               nextId := w.nextId + 1 } := by
  rcases EnableSessionSSLWithVersion_cases env conn w version pairRecord with
    ⟨e, _, hr⟩ | ⟨cert5, hk, ⟨_, hr⟩ | ⟨_, hr⟩ | ⟨e, _, hr⟩ | ⟨_, _, hr⟩⟩
  · rw [hr] at h; simp at h
  · rw [hr] at h; simp at h
  · rw [hr] at h; simp at h
  · rw [hr] at h; simp at h
  · rw [hr] at h
    simp only [Res.ret.injEq, true_and] at h
    exact ⟨cert5, hk, h.1.symm, h.2.symm⟩

/-- What `connectSocket` does, by the host OS and the result of the dial. -/
theorem connectSocket_cases (env : Env) (conn : DeviceConnection) (w : World) :
    (env.GOOS ≠ "windows" ∧ env.GOOS ≠ "darwin" ∧ env.GOOS ≠ "android" ∧ env.GOOS ≠ "linux"
      ∧ connectSocket env conn w
        = Res.ret (some (GoError.errorf ("unsupported system: " ++ env.GOOS ++
            ", please report to https://github.com/SonicCloudOrg/sonic-ios-bridge"))) conn w)
    ∨ ∃ network address,
        ((env.GOOS = "windows" ∧ network = "tcp" ∧ address = "127.0.0.1:27015")
          ∨ ((env.GOOS = "darwin" ∨ env.GOOS = "android" ∨ env.GOOS = "linux")
              ∧ network = "unix" ∧ address = "/var/run/usbmuxd"))
        ∧ ((∃ err, env.Dial w.trace DeviceConnectTimeout network address = some err
            ∧ connectSocket env conn w
              = Res.ret (some (NewErrorPrint ToolErr.ErrConnect "socket" err)) conn
                  { trace := w.trace ++ [Event.dial DeviceConnectTimeout network address],
                    nextId := w.nextId })
          ∨ (env.Dial w.trace DeviceConnectTimeout network address = none
            ∧ connectSocket env conn w
              = Res.ret none
                  { sslConnect := NetConn.sock w.nextId network address,
                    unencryptedConnect := conn.unencryptedConnect }
                  { trace := w.trace ++ [Event.dial DeviceConnectTimeout network address],
                    nextId := w.nextId + 1 })) := by
  by_cases hw : env.GOOS = "windows"
  · right
    refine ⟨"tcp", "127.0.0.1:27015", Or.inl ⟨hw, rfl, rfl⟩, ?_⟩
    cases hd : env.Dial w.trace DeviceConnectTimeout "tcp" "127.0.0.1:27015" with
    | some err =>
      left
      exact ⟨err, rfl, by simp [connectSocket, hw, TcpSocketAddress, hd, World.emit]⟩
    | none =>
      right
      exact ⟨rfl, by simp [connectSocket, hw, TcpSocketAddress, hd, World.emit, World.alloc]⟩
  · by_cases hu : env.GOOS = "darwin" ∨ env.GOOS = "android" ∨ env.GOOS = "linux"
    · right
      refine ⟨"unix", "/var/run/usbmuxd", Or.inr ⟨hu, rfl, rfl⟩, ?_⟩
      cases hd : env.Dial w.trace DeviceConnectTimeout "unix" "/var/run/usbmuxd" with
      | some err =>
        left
        exact ⟨err, rfl, by simp [connectSocket, hw, hu, UnixSocketAddress, hd, World.emit]⟩
      | none =>
        right
        exact ⟨rfl, by
          simp [connectSocket, hw, hu, UnixSocketAddress, hd, World.emit, World.alloc]⟩
    · left
      have hu1 := hu
      simp only [not_or] at hu1
      exact ⟨hw, hu1.1, hu1.2.1, hu1.2.2, by simp [connectSocket, hw, hu]⟩

/-- What `Send` does on a session with a secure handle, by the error of the
write alone: the number of bytes written plays no part. -/
theorem Send_cases (env : Env) (conn : DeviceConnection) (w : World) (bytes : Bytes)
    (hs : conn.sslConnect ≠ NetConn.nil) :
    (∃ e, (env.Write w.trace conn.sslConnect bytes).2 = some e
      ∧ Send env conn w bytes
        = Res.ret (some e) conn
            { trace := w.trace ++ [Event.write conn.sslConnect bytes,
                Event.close conn.sslConnect],
              nextId := w.nextId })
    ∨ ((env.Write w.trace conn.sslConnect bytes).2 = none
      ∧ Send env conn w bytes
        = Res.ret none conn
            { trace := w.trace ++ [Event.write conn.sslConnect bytes], nextId := w.nextId }) := by
  cases hw : (env.Write w.trace conn.sslConnect bytes).2 with
  | none =>
    right
    exact ⟨rfl, by simp [Send, hs, hw, World.emit]⟩
  | some e =>
    left
    refine ⟨e, rfl, ?_⟩
    rcases Close_eq env conn (w.emit (Event.write conn.sslConnect bytes)) with
      ⟨h, _⟩ | ⟨_, hc⟩
    · exact absurd h hs
    · simp only [World.emit] at hc
      simp [Send, hs, hw, hc, World.emit]

/-- The session `NewDeviceConnection` returns is well formed, whatever the dial
did. -/
theorem WellFormed_NewDeviceConnection (env : Env) (w : World) :
    WellFormed (NewDeviceConnection env w).conn (NewDeviceConnection env w).world := by
  rcases connectSocket_cases env {} w with
    ⟨_, _, _, _, hr⟩ | ⟨network, address, _, ⟨err, _, hr⟩ | ⟨_, hr⟩⟩ <;>
    simp [NewDeviceConnection, hr, WellFormed, Res.conn, Res.world, NetConn.allocatedBefore]

/-- An upgrade, whether it succeeds, fails or panics, keeps the session well
formed. -/
theorem WellFormed_EnableSessionSSLWithVersion (env : Env) (conn : DeviceConnection)
    (w : World) (version : List Int) (pairRecord : PairRecord) (h : WellFormed conn w) :
    WellFormed (EnableSessionSSLWithVersion env conn w version pairRecord).conn
      (EnableSessionSSLWithVersion env conn w version pairRecord).world := by
  obtain ⟨h1, h2, h3⟩ := h
  have m1 := allocatedBefore_mono _ _ (w.nextId + 1) (Nat.le_succ _) h1
  have m2 := allocatedBefore_mono _ _ (w.nextId + 1) (Nat.le_succ _) h2
  rcases EnableSessionSSLWithVersion_cases env conn w version pairRecord with
    ⟨e, _, hr⟩ | ⟨cert5, _, ⟨_, hr⟩ | ⟨_, hr⟩ | ⟨e, _, hr⟩ | ⟨_, _, hr⟩⟩
  · rw [hr]; exact ⟨h1, h2, h3⟩
  · rw [hr]; exact ⟨m1, m2, h3⟩
  · rw [hr]; exact ⟨m1, m2, h3⟩
  · rw [hr]; exact ⟨m1, m2, h3⟩
  · rw [hr]
    refine ⟨?_, m1, fun _ => tlsClient_ne_transport _ _ _⟩
    simp only [Res.conn, Res.world, NetConn.allocatedBefore, Bool.and_eq_true,
      decide_eq_true_eq]
    exact ⟨Nat.lt_succ_self _, m1⟩

/-- `DisableSessionSSL` keeps the session well formed. -/
theorem WellFormed_DisableSessionSSL (conn : DeviceConnection) (w : World)
    (h : WellFormed conn w) :
    WellFormed (DisableSessionSSL conn w).conn (DisableSessionSSL conn w).world := by
  obtain ⟨h1, h2, h3⟩ := h
  by_cases hs : conn.sslConnect = NetConn.nil
  · simp only [DisableSessionSSL, hs, ne_eq, not_true_eq_false, if_false, Res.conn, Res.world]
    exact ⟨h1, h2, h3⟩
  · simp only [DisableSessionSSL, hs, ne_eq, not_false_eq_true, if_true, Res.conn, Res.world]
    exact ⟨rfl, h2, fun hn => absurd rfl hn⟩

/-- One call of an accessor, of `Send` or of `Close` creates no object. -/
theorem Call.exec_nextId (env : Env) (conn : DeviceConnection) (w : World) (c : Call) :
    (c.exec env conn w).world.nextId = w.nextId := by
  cases c with
  | GetConn => rfl
  | Reader => rfl
  | Writer => rfl
  | Send bytes =>
    by_cases hs : conn.sslConnect = NetConn.nil
    · simp [Call.exec, Conn.Send, hs, Res.world]
    · rcases Send_cases env conn w bytes hs with ⟨e, _, hr⟩ | ⟨_, hr⟩ <;>
        simp [Call.exec, hr, Res.world]
  | Close =>
    rcases Close_eq env conn w with ⟨_, hr⟩ | ⟨_, hr⟩ <;> simp [Call.exec, hr, Res.world]

/-- A sequence of accessor, `Send` and `Close` calls keeps the session well
formed. -/
theorem WellFormed_runCalls (env : Env) (calls : List Call) (conn : DeviceConnection)
    (w : World) (h : WellFormed conn w) :
    WellFormed (runCalls env calls conn w).2.conn (runCalls env calls conn w).2.world := by
  induction calls generalizing w with
  | nil => exact h
  | cons c cs ih =>
    have hc := (Call.exec_conn env conn w c).1
    have hn := Call.exec_nextId env conn w c
    cases he : c.exec env conn w with
    | panic c1 w1 =>
      rw [he] at hc hn
      simp only [Res.conn, Res.world] at hc hn
      simp only [runCalls, he, Res.conn, Res.world]
      subst hc
      exact ⟨by rw [hn]; exact h.1, by rw [hn]; exact h.2.1, h.2.2⟩
    | ret v c1 w1 =>
      rw [he] at hc hn
      simp only [Res.conn, Res.world] at hc hn
      simp only [runCalls, he]
      subst hc
      exact ih w1 ⟨by rw [hn]; exact h.1, by rw [hn]; exact h.2.1, h.2.2⟩

/-- In every session state `Reader` and `Writer` return the secure slot.  That is
the handle `GetConn` returns whenever a secure handle is present; when none is present they return nil while `GetConn` returns the plain
handle.  In particular, after `DisableSessionSSL` they return nil, and `GetConn`
returns the plain handle of an upgraded session. -/
theorem Reader_Writer_eq (conn : DeviceConnection) (w : World) :
    Reader conn = conn.sslConnect
    ∧ Writer conn = conn.sslConnect
    ∧ (conn.sslConnect ≠ NetConn.nil →
        Reader conn = GetConn conn ∧ Writer conn = GetConn conn)
    ∧ (conn.sslConnect = NetConn.nil →
        Reader conn = NetConn.nil ∧ Writer conn = NetConn.nil
        ∧ GetConn conn = conn.unencryptedConnect)
    ∧ Reader (DisableSessionSSL conn w).conn = NetConn.nil
    ∧ Writer (DisableSessionSSL conn w).conn = NetConn.nil
    ∧ GetConn (DisableSessionSSL conn w).conn = conn.unencryptedConnect := by
  refine ⟨rfl, rfl, ?_, ?_, ?_, ?_, ?_⟩
  · intro h
    simp [Reader, Writer, GetConn, h]
  · intro h
    simp [Reader, Writer, GetConn, h]
  · by_cases h : conn.sslConnect = NetConn.nil <;> simp [DisableSessionSSL, Reader, Res.conn, h]
  · by_cases h : conn.sslConnect = NetConn.nil <;> simp [DisableSessionSSL, Writer, Res.conn, h]
  · by_cases h : conn.sslConnect = NetConn.nil <;>
      simp [DisableSessionSSL, GetConn, Res.conn, h]

/-- In every session state an upgrade performs nothing
but handshakes on a TLS client built over the secure slot `sslConnect`, and on
success it stores that same secure-slot handle in the slot `unencryptedConnect`
and installs the client as the secure handle.  The secure slot is the handle
`GetConn` returned just before the call whenever it is not nil; when it is nil
(as after `DisableSessionSSL`) the transport is nil, whatever the plain slot
holds. -/
theorem EnableSessionSSL_transport (env : Env) (conn : DeviceConnection) (w : World)
    (version : List Int) (pairRecord : PairRecord) :
    (∃ evs, (EnableSessionSSLWithVersion env conn w version pairRecord).world.trace
        = w.trace ++ evs
      ∧ ∀ ev ∈ evs, ∃ conf,
          ev = Event.handshake (NetConn.tlsClient w.nextId conn.sslConnect conf))
    ∧ (∃ evs, (EnableSessionSSL env conn w pairRecord).world.trace = w.trace ++ evs
      ∧ ∀ ev ∈ evs, ∃ conf,
          ev = Event.handshake (NetConn.tlsClient w.nextId conn.sslConnect conf))
    ∧ (∀ conn1 w1,
        (EnableSessionSSLWithVersion env conn w version pairRecord = Res.ret none conn1 w1
          ∨ EnableSessionSSL env conn w pairRecord = Res.ret none conn1 w1) →
        ∃ conf,
          conn1.unencryptedConnect = conn.sslConnect
          ∧ conn1.sslConnect = NetConn.tlsClient w.nextId conn.sslConnect conf
          ∧ Event.handshake (NetConn.tlsClient w.nextId conn.sslConnect conf) ∈ w1.trace)
    ∧ (conn.sslConnect ≠ NetConn.nil → conn.sslConnect = GetConn conn)
    ∧ (conn.sslConnect = NetConn.nil → GetConn conn = conn.unencryptedConnect) := by
  have hev : ∀ version1, ∃ evs,
      (EnableSessionSSLWithVersion env conn w version1 pairRecord).world.trace = w.trace ++ evs
      ∧ ∀ ev ∈ evs, ∃ conf,
          ev = Event.handshake (NetConn.tlsClient w.nextId conn.sslConnect conf) := by
    intro version1
    rcases EnableSessionSSLWithVersion_cases env conn w version1 pairRecord with
      ⟨e, _, hr⟩ | ⟨cert5, _, ⟨_, hr⟩ | ⟨_, hr⟩ | ⟨e, _, hr⟩ | ⟨_, _, hr⟩⟩
    · exact ⟨[], by simp [hr, Res.world], by simp⟩
    · exact ⟨_, by rw [hr]; rfl, by
        intro ev hev
        simp only [List.mem_singleton] at hev
        exact ⟨_, hev⟩⟩
    all_goals
      refine ⟨_, by rw [hr]; rfl, ?_⟩
      intro ev hev
      simp only [List.mem_cons, List.mem_singleton, List.not_mem_nil, or_false, or_self] at hev
      exact ⟨_, hev⟩
  refine ⟨hev version, by rw [EnableSessionSSL_eq]; exact hev [], ?_, ?_, ?_⟩
  · intro conn1 w1 h
    have h1 : ∃ version1, EnableSessionSSLWithVersion env conn w version1 pairRecord
        = Res.ret none conn1 w1 := by
      rcases h with h | h
      · exact ⟨version, h⟩
      · exact ⟨[], by rw [← EnableSessionSSL_eq]; exact h⟩
    obtain ⟨version1, h2⟩ := h1
    obtain ⟨cert5, _, hc, hw⟩ :=
      EnableSessionSSLWithVersion_success env conn w version1 pairRecord conn1 w1 h2
    exact ⟨handshakeConfig version1 cert5, by simp [hc], by simp [hc], by simp [hw]⟩
  · intro h
    simp [GetConn, h]
  · intro h
    simp [GetConn, h]

/-! ## The claims -/

/-- C1: if `EnableSessionSSL` or `EnableSessionSSLWithVersion` returns success,
then `GetConn`, `Reader` and `Writer` all return the newly created encrypted
stream: a TLS client built over the old secure slot, which is neither nil nor the
old secure slot, nor the handle `GetConn` returned before when that one was
created earlier.  After any sequence of `GetConn`, `Reader`, `Writer`, `Send` and
`Close` calls (run until its end or a panic) the slots are as the upgrade left
them, and every handle an accessor returned on the way is that stream. -/
theorem upgrade_success_targets_encrypted_stream (env : Env) (conn : DeviceConnection)
    (w : World) (version : List Int) (pairRecord : PairRecord)
    (conn1 : DeviceConnection) (w1 : World)
    (h : EnableSessionSSLWithVersion env conn w version pairRecord = Res.ret none conn1 w1
      ∨ EnableSessionSSL env conn w pairRecord = Res.ret none conn1 w1) :
    ∃ conf : TlsConfig,
      GetConn conn1 = NetConn.tlsClient w.nextId conn.sslConnect conf
      ∧ Reader conn1 = NetConn.tlsClient w.nextId conn.sslConnect conf
      ∧ Writer conn1 = NetConn.tlsClient w.nextId conn.sslConnect conf
      ∧ NetConn.tlsClient w.nextId conn.sslConnect conf ≠ NetConn.nil
      ∧ NetConn.tlsClient w.nextId conn.sslConnect conf ≠ conn.sslConnect
      ∧ ((GetConn conn).allocatedBefore w.nextId = true →
          NetConn.tlsClient w.nextId conn.sslConnect conf ≠ GetConn conn)
      ∧ ∀ calls : List Call,
          (runCalls env calls conn1 w1).2.conn = conn1
          ∧ GetConn (runCalls env calls conn1 w1).2.conn
              = NetConn.tlsClient w.nextId conn.sslConnect conf
          ∧ Reader (runCalls env calls conn1 w1).2.conn
              = NetConn.tlsClient w.nextId conn.sslConnect conf
          ∧ Writer (runCalls env calls conn1 w1).2.conn
              = NetConn.tlsClient w.nextId conn.sslConnect conf
          ∧ ∀ v ∈ (runCalls env calls conn1 w1).1, ∀ x, v = Val.handle x →
              x = NetConn.tlsClient w.nextId conn.sslConnect conf := by
  have key : ∃ version1, EnableSessionSSLWithVersion env conn w version1 pairRecord
      = Res.ret none conn1 w1 := by
    rcases h with h | h
    · exact ⟨version, h⟩
    · exact ⟨[], by rw [← EnableSessionSSL_eq]; exact h⟩
  obtain ⟨version1, h1⟩ := key
  obtain ⟨cert5, _, hc, _⟩ :=
    EnableSessionSSLWithVersion_success env conn w version1 pairRecord conn1 w1 h1
  refine ⟨handshakeConfig version1 cert5, ?_, ?_, ?_, ?_, ?_, ?_, ?_⟩
  · simp [hc, GetConn]
  · simp [hc, Reader]
  · simp [hc, Writer]
  · simp
  · exact tlsClient_ne_transport _ _ _
  · intro hb
    exact tlsClient_ne_of_allocatedBefore _ _ _ _ hb
  · intro calls
    have hr := runCalls_conn env calls conn1 w1
    have hs : conn1.sslConnect
        = NetConn.tlsClient w.nextId conn.sslConnect (handshakeConfig version1 cert5) := by
      simp [hc]
    have hne : conn1.sslConnect ≠ NetConn.nil := by simp [hs]
    refine ⟨hr.1, ?_, ?_, ?_, ?_⟩
    · rw [hr.1]; simp [GetConn, hs]
    · rw [hr.1]; simp [Reader, hs]
    · rw [hr.1]; simp [Writer, hs]
    · intro v hv x hx
      rw [← hs]
      exact hr.2 v hv x hx hne

/-- C1 at a concrete session: the upgrade of the freshly opened session on
`envLinux` succeeds, and the accessors then return the TLS client `tls1`. -/
theorem upgrade_success_targets_encrypted_stream_witness :
    EnableSessionSSLWithVersion envLinux connOpened worldOpened [11] pairRecord0
      = Res.ret none connUpgraded worldUpgraded
    ∧ ∃ conf : TlsConfig,
      GetConn connUpgraded = NetConn.tlsClient 1 sock0 conf
      ∧ ∀ x, Val.handle x ∈ (runCalls envLinux
            [Call.Send [7], Call.Reader, Call.Close, Call.GetConn]
            connUpgraded worldUpgraded).1 → x = NetConn.tlsClient 1 sock0 conf := by
  refine ⟨by decide, ?_⟩
  obtain ⟨conf, h1, _, _, _, _, _, h7⟩ :=
    upgrade_success_targets_encrypted_stream envLinux connOpened worldOpened [11] pairRecord0
      connUpgraded worldUpgraded (Or.inl (by decide))
  exact ⟨conf, h1, fun x hx => (h7 _).2.2.2.2 _ hx x rfl⟩

/-- C2: an upgrade is all-or-nothing.  If `EnableSessionSSL` or
`EnableSessionSSLWithVersion` returns an error, both handle slots are exactly as
before the call and `GetConn` returns what it returned before; the error is that
of the key pair or that of the handshake.  And a key pair that does not parse, or
a handshake that fails, does make both functions return that error. -/
theorem upgrade_failure_leaves_slots (env : Env) (conn : DeviceConnection) (w : World)
    (version : List Int) (pairRecord : PairRecord) :
    (∀ e conn1 w1,
        (EnableSessionSSLWithVersion env conn w version pairRecord = Res.ret (some e) conn1 w1
          ∨ EnableSessionSSL env conn w pairRecord = Res.ret (some e) conn1 w1) →
        conn1 = conn
        ∧ conn1.sslConnect = conn.sslConnect
        ∧ conn1.unencryptedConnect = conn.unencryptedConnect
        ∧ GetConn conn1 = GetConn conn
        ∧ (env.X509KeyPair pairRecord.HostCertificate pairRecord.HostPrivateKey
              = Except.error e
            ∨ ∃ conf, env.Handshake
                (w.trace ++ [Event.handshake (NetConn.tlsClient w.nextId conn.sslConnect conf)])
                (NetConn.tlsClient w.nextId conn.sslConnect conf) = HandshakeResult.failed e))
    ∧ (∀ e, env.X509KeyPair pairRecord.HostCertificate pairRecord.HostPrivateKey
          = Except.error e →
        EnableSessionSSLWithVersion env conn w version pairRecord = Res.ret (some e) conn w
        ∧ EnableSessionSSL env conn w pairRecord = Res.ret (some e) conn w)
    ∧ (∀ cert5 e, env.X509KeyPair pairRecord.HostCertificate pairRecord.HostPrivateKey
          = Except.ok cert5 →
        env.Handshake w.trace
          (NetConn.tlsClient w.nextId conn.sslConnect (handshakeConfig version cert5))
          ≠ HandshakeResult.panicked →
        env.Handshake (w.trace ++ [Event.handshake
            (NetConn.tlsClient w.nextId conn.sslConnect (handshakeConfig version cert5))])
          (NetConn.tlsClient w.nextId conn.sslConnect (handshakeConfig version cert5))
          = HandshakeResult.failed e →
        ∃ w1, EnableSessionSSLWithVersion env conn w version pairRecord
          = Res.ret (some e) conn w1) := by
  have key : ∀ version1 e conn1 w1,
      EnableSessionSSLWithVersion env conn w version1 pairRecord = Res.ret (some e) conn1 w1 →
      conn1 = conn
      ∧ (env.X509KeyPair pairRecord.HostCertificate pairRecord.HostPrivateKey = Except.error e
        ∨ ∃ conf, env.Handshake
            (w.trace ++ [Event.handshake (NetConn.tlsClient w.nextId conn.sslConnect conf)])
            (NetConn.tlsClient w.nextId conn.sslConnect conf) = HandshakeResult.failed e) := by
    intro version1 e conn1 w1 h
    rcases EnableSessionSSLWithVersion_cases env conn w version1 pairRecord with
      ⟨e1, hk, hr⟩ | ⟨cert5, hk, ⟨_, hr⟩ | ⟨_, hr⟩ | ⟨e1, h2, hr⟩ | ⟨_, _, hr⟩⟩
    · rw [hr] at h
      simp only [Res.ret.injEq, Option.some.injEq] at h
      exact ⟨h.2.1.symm, Or.inl (by rw [hk, h.1])⟩
    · rw [hr] at h; simp at h
    · rw [hr] at h; simp at h
    · rw [hr] at h
      simp only [Res.ret.injEq, Option.some.injEq] at h
      exact ⟨h.2.1.symm, Or.inr ⟨_, by rw [h2, h.1]⟩⟩
    · rw [hr] at h; simp at h
  refine ⟨?_, ?_, ?_⟩
  · intro e conn1 w1 h
    have h1 : ∃ version1, EnableSessionSSLWithVersion env conn w version1 pairRecord
        = Res.ret (some e) conn1 w1 := by
      rcases h with h | h
      · exact ⟨version, h⟩
      · exact ⟨[], by rw [← EnableSessionSSL_eq]; exact h⟩
    obtain ⟨version1, h2⟩ := h1
    obtain ⟨hc, hsrc⟩ := key version1 e conn1 w1 h2
    subst hc
    exact ⟨rfl, rfl, rfl, rfl, hsrc⟩
  · intro e hk
    have h1 : ∀ version1, EnableSessionSSLWithVersion env conn w version1 pairRecord
        = Res.ret (some e) conn w := by
      intro version1
      simp [EnableSessionSSLWithVersion, createTLSClient, hk]
    exact ⟨h1 version, by rw [EnableSessionSSL_eq]; exact h1 []⟩
  · intro cert5 e hk h1 h2
    rcases EnableSessionSSLWithVersion_cases env conn w version pairRecord with
      ⟨e1, hk1, _⟩ | ⟨cert6, hk1, hcases⟩
    · rw [hk] at hk1; cases hk1
    · rw [hk] at hk1
      cases hk1
      rcases hcases with ⟨hp, _⟩ | ⟨hp, _⟩ | ⟨e1, hf, hr⟩ | ⟨_, hd, _⟩
      · exact absurd hp h1
      · rw [h2] at hp; cases hp
      · rw [h2] at hf
        cases hf
        exact ⟨_, hr⟩
      · rw [h2] at hd; cases hd

/-- C2 at concrete sessions: a rejected handshake and an unparsable key pair on
the freshly opened session. -/
theorem upgrade_failure_leaves_slots_witness :
    EnableSessionSSLWithVersion envRejected connOpened worldOpened [11] pairRecord0
      = Res.ret (some (GoError.lib "remote error: tls: handshake failure")) connOpened
          { trace := worldOpened.trace ++ [Event.handshake tls1, Event.handshake tls1],
            nextId := 2 }
    ∧ GetConn connOpened = sock0
    ∧ EnableSessionSSL envBadKey connOpened worldOpened pairRecord0
      = Res.ret (some (GoError.lib "tls: failed to find any PEM data")) connOpened worldOpened :=
  ⟨by decide,
   ((upgrade_failure_leaves_slots envRejected connOpened worldOpened [11] pairRecord0).1
      (GoError.lib "remote error: tls: handshake failure") connOpened
      { trace := worldOpened.trace ++ [Event.handshake tls1, Event.handshake tls1],
        nextId := 2 }
      (Or.inl (by decide))).2.2.2.1,
   ((upgrade_failure_leaves_slots envBadKey connOpened worldOpened [] pairRecord0).2.1
      (GoError.lib "tls: failed to find any PEM data") rfl).2⟩

/-- C3: for a session obtained from a successful open (dialled handle
`sock id network address`) followed by a successful upgrade, `DisableSessionSSL`
returns, performs no external operation (so closes no handle), clears the secure
slot and makes `GetConn` return the dialled handle again.  In every state
`DisableSessionSSL` returns without an external operation; on a session with no
secure handle it changes nothing; and applied twice it equals applied once. -/
theorem disable_reverts_to_dialled_handle (env : Env) :
    (∀ w0 conn1 w1 version pairRecord conn2 w2,
        NewDeviceConnection env w0 = Res.ret none conn1 w1 →
        (EnableSessionSSLWithVersion env conn1 w1 version pairRecord = Res.ret none conn2 w2
          ∨ EnableSessionSSL env conn1 w1 pairRecord = Res.ret none conn2 w2) →
        ∃ network address,
          conn1.sslConnect = NetConn.sock w0.nextId network address
          ∧ GetConn conn1 = NetConn.sock w0.nextId network address
          ∧ GetConn conn2 ≠ NetConn.sock w0.nextId network address
          ∧ DisableSessionSSL conn2 w2
            = Res.ret ()
                { sslConnect := NetConn.nil,
                  unencryptedConnect := NetConn.sock w0.nextId network address } w2
          ∧ GetConn (DisableSessionSSL conn2 w2).conn = NetConn.sock w0.nextId network address)
    ∧ (∀ conn w, conn.sslConnect = NetConn.nil → DisableSessionSSL conn w = Res.ret () conn w)
    ∧ (∀ conn w, ∃ conn1,
        DisableSessionSSL conn w = Res.ret () conn1 w
        ∧ conn1.sslConnect = NetConn.nil
        ∧ conn1.unencryptedConnect = conn.unencryptedConnect
        ∧ DisableSessionSSL conn1 w = Res.ret () conn1 w) := by
  refine ⟨?_, ?_, ?_⟩
  · intro w0 conn1 w1 version pairRecord conn2 w2 hopen hup
    have hopen1 : ∃ network address,
        conn1 = { sslConnect := NetConn.sock w0.nextId network address,
                  unencryptedConnect := NetConn.nil } := by
      rcases connectSocket_cases env {} w0 with
        ⟨_, _, _, _, hr⟩ | ⟨network, address, _, ⟨err, _, hr⟩ | ⟨_, hr⟩⟩
      · rw [NewDeviceConnection, hr] at hopen; simp at hopen
      · rw [NewDeviceConnection, hr] at hopen; simp at hopen
      · rw [NewDeviceConnection, hr] at hopen
        simp only [Res.ret.injEq, true_and] at hopen
        exact ⟨network, address, hopen.1.symm⟩
    obtain ⟨network, address, hc1⟩ := hopen1
    have hup1 : ∃ version1, EnableSessionSSLWithVersion env conn1 w1 version1 pairRecord
        = Res.ret none conn2 w2 := by
      rcases hup with h | h
      · exact ⟨version, h⟩
      · exact ⟨[], by rw [← EnableSessionSSL_eq]; exact h⟩
    obtain ⟨version1, hup2⟩ := hup1
    obtain ⟨cert5, _, hc2, _⟩ :=
      EnableSessionSSLWithVersion_success env conn1 w1 version1 pairRecord conn2 w2 hup2
    refine ⟨network, address, ?_, ?_, ?_, ?_, ?_⟩
    · simp [hc1]
    · simp [hc1, GetConn]
    · simp [hc2, hc1, GetConn]
    · simp [hc2, hc1, DisableSessionSSL]
    · simp [hc2, hc1, DisableSessionSSL, Res.conn, GetConn]
  · intro conn w h
    simp [DisableSessionSSL, h]
  · intro conn w
    by_cases h : conn.sslConnect = NetConn.nil
    · exact ⟨conn, by simp [DisableSessionSSL, h], h, rfl, by simp [DisableSessionSSL, h]⟩
    · exact ⟨{ conn with sslConnect := NetConn.nil }, by simp [DisableSessionSSL, h], rfl, rfl,
        by simp [DisableSessionSSL]⟩

/-- C3 at a concrete session: open, upgrade and downgrade on `envLinux`. -/
theorem disable_reverts_to_dialled_handle_witness :
    NewDeviceConnection envLinux world0 = Res.ret none connOpened worldOpened
    ∧ EnableSessionSSLWithVersion envLinux connOpened worldOpened [11] pairRecord0
      = Res.ret none connUpgraded worldUpgraded
    ∧ DisableSessionSSL connUpgraded worldUpgraded = Res.ret () connDowngraded worldUpgraded
    ∧ GetConn connDowngraded = sock0
    ∧ ∃ network address,
        GetConn (DisableSessionSSL connUpgraded worldUpgraded).conn
          = NetConn.sock world0.nextId network address := by
  refine ⟨by decide, by decide, by decide, by decide, ?_⟩
  obtain ⟨network, address, _, _, _, _, h⟩ :=
    (disable_reverts_to_dialled_handle envLinux).1 world0 connOpened worldOpened [11]
      pairRecord0 connUpgraded worldUpgraded (by decide) (Or.inl (by decide))
  exact ⟨network, address, h⟩

/-- C4: `Reader` and `Writer` should return the handle `GetConn` returns, the
plain handle after `DisableSessionSSL`.  Evaluated on `envLinux` after open,
upgrade and `DisableSessionSSL`: `GetConn` applies the secure-else-plain rule and
returns the plain handle `sock0`, while `Reader` and `Writer`, which lack that
fallback, return nil. -/
theorem reader_writer_not_plain_after_disable :
    NewDeviceConnection envLinux world0 = Res.ret none connOpened worldOpened
    ∧ EnableSessionSSLWithVersion envLinux connOpened worldOpened [11] pairRecord0
      = Res.ret none connUpgraded worldUpgraded
    ∧ DisableSessionSSL connUpgraded worldUpgraded = Res.ret () connDowngraded worldUpgraded
    ∧ connDowngraded.unencryptedConnect = sock0
    ∧ GetConn connDowngraded = sock0
    ∧ Reader connDowngraded = NetConn.nil
    ∧ Writer connDowngraded = NetConn.nil
    ∧ Reader connDowngraded ≠ GetConn connDowngraded
    ∧ Writer connDowngraded ≠ GetConn connDowngraded := by
  decide

/-- C5: the transport is selected by the host OS name alone.  On "windows" the
one external operation of `connectSocket` is a dial, with the one-minute timeout,
to network "tcp" at "127.0.0.1:27015"; on "darwin", "android" and "linux" it is a
dial to network "unix" at "/var/run/usbmuxd"; on every other OS name
`connectSocket` returns the error "unsupported system: <OS>, please report to
...", the world is as before (no dial) and so are the slots.  The same holds for
`NewDeviceConnection`, whose session is then the empty one. -/
theorem transport_selected_by_os (env : Env) (conn : DeviceConnection) (w : World) :
    (env.GOOS = "windows" →
      (connectSocket env conn w).world.trace
        = w.trace ++ [Event.dial 60000000000 "tcp" "127.0.0.1:27015"])
    ∧ (env.GOOS = "darwin" ∨ env.GOOS = "android" ∨ env.GOOS = "linux" →
      (connectSocket env conn w).world.trace
        = w.trace ++ [Event.dial 60000000000 "unix" "/var/run/usbmuxd"])
    ∧ (env.GOOS ≠ "windows" → env.GOOS ≠ "darwin" → env.GOOS ≠ "android" →
        env.GOOS ≠ "linux" →
      connectSocket env conn w
        = Res.ret (some (GoError.errorf ("unsupported system: " ++ env.GOOS ++
            ", please report to https://github.com/SonicCloudOrg/sonic-ios-bridge"))) conn w
      ∧ NewDeviceConnection env w
        = Res.ret (some (GoError.errorf ("unsupported system: " ++ env.GOOS ++
            ", please report to https://github.com/SonicCloudOrg/sonic-ios-bridge")))
            { sslConnect := NetConn.nil, unencryptedConnect := NetConn.nil } w) := by
  have hne1 : ("windows" : String) ≠ "darwin" := by decide
  have hne2 : ("windows" : String) ≠ "android" := by decide
  have hne3 : ("windows" : String) ≠ "linux" := by decide
  have ht : DeviceConnectTimeout = 60000000000 := by decide
  refine ⟨?_, ?_, ?_⟩
  · intro hw
    rcases connectSocket_cases env conn w with
      ⟨h, _⟩ | ⟨network, address, hsel, hres⟩
    · exact absurd hw h
    · have hna : network = "tcp" ∧ address = "127.0.0.1:27015" := by
        rcases hsel with ⟨_, h1, h2⟩ | ⟨hu, _⟩
        · exact ⟨h1, h2⟩
        · rw [hw] at hu
          rcases hu with hu | hu | hu
          · exact absurd hu hne1
          · exact absurd hu hne2
          · exact absurd hu hne3
      rw [hna.1, hna.2, ht] at hres
      rcases hres with ⟨err, _, hr⟩ | ⟨_, hr⟩ <;> simp [hr, Res.world]
  · intro hu
    rcases connectSocket_cases env conn w with
      ⟨_, h1, h2, h3, _⟩ | ⟨network, address, hsel, hres⟩
    · rcases hu with hu | hu | hu
      · exact absurd hu h1
      · exact absurd hu h2
      · exact absurd hu h3
    · have hna : network = "unix" ∧ address = "/var/run/usbmuxd" := by
        rcases hsel with ⟨hw, _⟩ | ⟨_, h1, h2⟩
        · rw [hw] at hu
          rcases hu with hu | hu | hu
          · exact absurd hu hne1
          · exact absurd hu hne2
          · exact absurd hu hne3
        · exact ⟨h1, h2⟩
      rw [hna.1, hna.2, ht] at hres
      rcases hres with ⟨err, _, hr⟩ | ⟨_, hr⟩ <;> simp [hr, Res.world]
  · intro h1 h2 h3 h4
    have key : ∀ conn1 : DeviceConnection, connectSocket env conn1 w
        = Res.ret (some (GoError.errorf ("unsupported system: " ++ env.GOOS ++
            ", please report to https://github.com/SonicCloudOrg/sonic-ios-bridge")))
            conn1 w := by
      intro conn1
      rcases connectSocket_cases env conn1 w with
        ⟨_, _, _, _, hr⟩ | ⟨network, address, hsel, _⟩
      · exact hr
      · rcases hsel with ⟨hw, _⟩ | ⟨hu, _⟩
        · exact absurd hw h1
        · rcases hu with hu | hu | hu
          · exact absurd hu h2
          · exact absurd hu h3
          · exact absurd hu h4
    exact ⟨key conn, key _⟩

/-- C5 at concrete hosts: Windows, Linux and an OS the package does not know. -/
theorem transport_selected_by_os_witness :
    (connectSocket envWindows {} world0).world.trace
      = [Event.dial 60000000000 "tcp" "127.0.0.1:27015"]
    ∧ (connectSocket envLinux {} world0).world.trace
      = [Event.dial 60000000000 "unix" "/var/run/usbmuxd"]
    ∧ NewDeviceConnection envPlan9 world0
      = Res.ret (some (GoError.errorf
          "unsupported system: plan9, please report to https://github.com/SonicCloudOrg/sonic-ios-bridge"))
          { sslConnect := NetConn.nil, unencryptedConnect := NetConn.nil } world0 :=
  ⟨(transport_selected_by_os envWindows {} world0).1 (by decide),
   (transport_selected_by_os envLinux {} world0).2.1 (by decide),
   ((transport_selected_by_os envPlan9 {} world0).2.2
      (by decide) (by decide) (by decide) (by decide)).2⟩

/-- C6, as the code has it: when the open succeeds with the dialled handle
`sock id network address`, the secure slot `sslConnect` holds that handle and the
slot `unencryptedConnect` is nil, so `GetConn`, `Reader` and `Writer` return the
dialled handle; when the dial fails with `err`, both slots are nil and the error
returned is `tool.NewErrorPrint(tool.ErrConnect, "socket", err)`. -/
theorem open_stores_handle_in_secure_slot (env : Env) (w : World) :
    (∀ conn1 w1, NewDeviceConnection env w = Res.ret none conn1 w1 →
      ∃ network address,
        env.Dial w.trace DeviceConnectTimeout network address = none
        ∧ w1 = { trace := w.trace ++ [Event.dial DeviceConnectTimeout network address],
                 nextId := w.nextId + 1 }
        ∧ conn1.sslConnect = NetConn.sock w.nextId network address
        ∧ conn1.unencryptedConnect = NetConn.nil
        ∧ GetConn conn1 = NetConn.sock w.nextId network address
        ∧ Reader conn1 = NetConn.sock w.nextId network address
        ∧ Writer conn1 = NetConn.sock w.nextId network address)
    ∧ (∀ err, env.GOOS = "windows" →
        env.Dial w.trace DeviceConnectTimeout "tcp" "127.0.0.1:27015" = some err →
        NewDeviceConnection env w
          = Res.ret (some (NewErrorPrint ToolErr.ErrConnect "socket" err))
              { sslConnect := NetConn.nil, unencryptedConnect := NetConn.nil }
              { trace := w.trace ++ [Event.dial DeviceConnectTimeout "tcp" "127.0.0.1:27015"],
                nextId := w.nextId })
    ∧ (∀ err, (env.GOOS = "darwin" ∨ env.GOOS = "android" ∨ env.GOOS = "linux") →
        env.Dial w.trace DeviceConnectTimeout "unix" "/var/run/usbmuxd" = some err →
        NewDeviceConnection env w
          = Res.ret (some (NewErrorPrint ToolErr.ErrConnect "socket" err))
              { sslConnect := NetConn.nil, unencryptedConnect := NetConn.nil }
              { trace := w.trace ++ [Event.dial DeviceConnectTimeout "unix" "/var/run/usbmuxd"],
                nextId := w.nextId }) := by
  have hne1 : ("windows" : String) ≠ "darwin" := by decide
  have hne2 : ("windows" : String) ≠ "android" := by decide
  have hne3 : ("windows" : String) ≠ "linux" := by decide
  refine ⟨?_, ?_, ?_⟩
  · intro conn1 w1 h
    rcases connectSocket_cases env {} w with
      ⟨_, _, _, _, hr⟩ | ⟨network, address, _, ⟨err, _, hr⟩ | ⟨hd, hr⟩⟩
    · rw [NewDeviceConnection, hr] at h; simp at h
    · rw [NewDeviceConnection, hr] at h; simp at h
    · rw [NewDeviceConnection, hr] at h
      simp only [Res.ret.injEq, true_and] at h
      obtain ⟨hc, hw⟩ := h
      subst hc
      subst hw
      exact ⟨network, address, hd, rfl, rfl, rfl, by simp [GetConn], rfl, rfl⟩
  · intro err hw hd
    rcases connectSocket_cases env {} w with
      ⟨h, _⟩ | ⟨network, address, hsel, hres⟩
    · exact absurd hw h
    · have hna : network = "tcp" ∧ address = "127.0.0.1:27015" := by
        rcases hsel with ⟨_, h1, h2⟩ | ⟨hu, _⟩
        · exact ⟨h1, h2⟩
        · rw [hw] at hu
          rcases hu with hu | hu | hu
          · exact absurd hu hne1
          · exact absurd hu hne2
          · exact absurd hu hne3
      rw [hna.1, hna.2] at hres
      rcases hres with ⟨err1, hd1, hr⟩ | ⟨hd1, _⟩
      · rw [hd] at hd1
        cases hd1
        rw [NewDeviceConnection, hr]
      · rw [hd] at hd1; cases hd1
  · intro err hu hd
    rcases connectSocket_cases env {} w with
      ⟨_, h1, h2, h3, _⟩ | ⟨network, address, hsel, hres⟩
    · rcases hu with hu | hu | hu
      · exact absurd hu h1
      · exact absurd hu h2
      · exact absurd hu h3
    · have hna : network = "unix" ∧ address = "/var/run/usbmuxd" := by
        rcases hsel with ⟨hw, _⟩ | ⟨_, h1, h2⟩
        · rw [hw] at hu
          rcases hu with hu | hu | hu
          · exact absurd hu hne1
          · exact absurd hu hne2
          · exact absurd hu hne3
        · exact ⟨h1, h2⟩
      rw [hna.1, hna.2] at hres
      rcases hres with ⟨err1, hd1, hr⟩ | ⟨hd1, _⟩
      · rw [hd] at hd1
        cases hd1
        rw [NewDeviceConnection, hr]
      · rw [hd] at hd1; cases hd1

/-- C6 as amended, at concrete hosts: a successful open on `envLinux` and a
refused dial on `envRefused`. -/
theorem open_stores_handle_in_secure_slot_witness :
    (∃ network address,
      connOpened.sslConnect = NetConn.sock 0 network address
      ∧ connOpened.unencryptedConnect = NetConn.nil
      ∧ GetConn connOpened = NetConn.sock 0 network address)
    ∧ NewDeviceConnection envRefused world0
      = Res.ret (some (NewErrorPrint ToolErr.ErrConnect "socket"
            (GoError.lib "connection refused")))
          { sslConnect := NetConn.nil, unencryptedConnect := NetConn.nil }
          { trace := [Event.dial DeviceConnectTimeout "unix" "/var/run/usbmuxd"],
            nextId := 0 } := by
  constructor
  · obtain ⟨network, address, _, _, h1, h2, h3, _⟩ :=
      (open_stores_handle_in_secure_slot envLinux world0).1 connOpened worldOpened (by decide)
    exact ⟨network, address, h1, h2, h3⟩
  · exact (open_stores_handle_in_secure_slot envRefused world0).2.2
      (GoError.lib "connection refused") (by decide) (by decide)

/-- C6 as stated fails: after a successful open on `envLinux` the slot
`unencryptedConnect` does not hold the dialled handle `sock0` (it is nil), and the
secure slot `sslConnect` is not empty (it holds `sock0`). -/
theorem open_leaves_plain_slot_empty :
    NewDeviceConnection envLinux world0 = Res.ret none connOpened worldOpened
    ∧ (NewDeviceConnection envLinux world0).conn.unencryptedConnect = NetConn.nil
    ∧ (NewDeviceConnection envLinux world0).conn.unencryptedConnect ≠ sock0
    ∧ (NewDeviceConnection envLinux world0).conn.sslConnect = sock0
    ∧ (NewDeviceConnection envLinux world0).conn.sslConnect ≠ NetConn.nil := by
  decide

/-- C7, as the code has it: once the key pair has parsed, every handshake of
`createTLSClient` (there is at least one) runs on a client built over the secure
slot with one configuration `conf`, which skips verification, carries the parsed
certificate and asks for no client certificate.  For a preference whose first
element is greater than 10 its range is TLS 1.1 (0x0302) to TLS 1.3 (0x0304); for
a preference whose first element is at most 10 it is pinned to TLS 1.1; for the
empty preference, which is what `EnableSessionSSL` passes, `MinVersion` and
`MaxVersion` are left at zero, not pinned. -/
theorem handshake_version_range (env : Env) (conn : DeviceConnection) (w : World)
    (version : List Int) (pairRecord : PairRecord) (cert5 : Certificate)
    (hk : env.X509KeyPair pairRecord.HostCertificate pairRecord.HostPrivateKey
      = Except.ok cert5) :
    ∃ conf evs,
      (createTLSClient env conn w version pairRecord).world.trace
        = w.trace ++ Event.handshake (NetConn.tlsClient w.nextId conn.sslConnect conf) :: evs
      ∧ (∀ ev ∈ evs, ev = Event.handshake (NetConn.tlsClient w.nextId conn.sslConnect conf))
      ∧ (∀ t conn1 w1, createTLSClient env conn w version pairRecord
            = Res.ret (t, none) conn1 w1 →
          t = NetConn.tlsClient w.nextId conn.sslConnect conf)
      ∧ (EnableSessionSSLWithVersion env conn w version pairRecord).world
          = (createTLSClient env conn w version pairRecord).world
      ∧ (EnableSessionSSL env conn w pairRecord).world
          = (createTLSClient env conn w [] pairRecord).world
      ∧ conf.InsecureSkipVerify = true
      ∧ conf.Certificates = [cert5]
      ∧ conf.ClientAuth = ClientAuthType.NoClientCert
      ∧ (∀ v vs, version = v :: vs → v > 10 →
          conf.MinVersion = 0x0302 ∧ conf.MaxVersion = 0x0304)
      ∧ (∀ v vs, version = v :: vs → v ≤ 10 →
          conf.MinVersion = 0x0302 ∧ conf.MaxVersion = 0x0302)
      ∧ (version = [] → conf.MinVersion = 0 ∧ conf.MaxVersion = 0) := by
  have hworld : ∀ version1,
      (EnableSessionSSLWithVersion env conn w version1 pairRecord).world
        = (createTLSClient env conn w version1 pairRecord).world := by
    intro version1
    rw [EnableSessionSSLWithVersion]
    cases hc : createTLSClient env conn w version1 pairRecord with
    | panic c1 w1 => simp [Res.world]
    | ret v c1 w1 =>
      obtain ⟨t, e⟩ := v
      cases e <;> simp [Res.world]
  have hconf : (handshakeConfig version cert5).InsecureSkipVerify = true
      ∧ (handshakeConfig version cert5).Certificates = [cert5]
      ∧ (handshakeConfig version cert5).ClientAuth = ClientAuthType.NoClientCert
      ∧ (∀ v vs, version = v :: vs → v > 10 →
          (handshakeConfig version cert5).MinVersion = 0x0302
          ∧ (handshakeConfig version cert5).MaxVersion = 0x0304)
      ∧ (∀ v vs, version = v :: vs → v ≤ 10 →
          (handshakeConfig version cert5).MinVersion = 0x0302
          ∧ (handshakeConfig version cert5).MaxVersion = 0x0302)
      ∧ (version = [] → (handshakeConfig version cert5).MinVersion = 0
          ∧ (handshakeConfig version cert5).MaxVersion = 0) := by
    rcases version with _ | ⟨v0, vs0⟩
    · simp [handshakeConfig]
    · by_cases hv : v0 > 10
      · refine ⟨by simp [handshakeConfig, hv], by simp [handshakeConfig, hv],
          by simp [handshakeConfig, hv], ?_, ?_, by simp⟩
        · intro v vs hvs _
          simp [handshakeConfig, hv, VersionTLS11, VersionTLS13]
        · intro v vs hvs hle
          simp only [List.cons.injEq] at hvs
          omega
      · refine ⟨by simp [handshakeConfig, hv], by simp [handshakeConfig, hv],
          by simp [handshakeConfig, hv], ?_, ?_, by simp⟩
        · intro v vs hvs hgt
          simp only [List.cons.injEq] at hvs
          omega
        · intro v vs hvs _
          simp [handshakeConfig, hv, VersionTLS11]
  have heq := createTLSClient_eq env conn w version pairRecord cert5 hk
  cases h1 : env.Handshake w.trace
      (NetConn.tlsClient w.nextId conn.sslConnect (handshakeConfig version cert5)) with
  | panicked =>
    rw [h1] at heq
    simp only at heq
    refine ⟨handshakeConfig version cert5, [], by simp [heq, Res.world], by simp, ?_,
      hworld version, ?_, hconf⟩
    · intro t c1 w1 h
      rw [heq] at h
      cases h
    · rw [EnableSessionSSL_eq]
      exact hworld []
  | done =>
    rw [h1] at heq
    simp only at heq
    refine ⟨handshakeConfig version cert5,
      [Event.handshake (NetConn.tlsClient w.nextId conn.sslConnect
        (handshakeConfig version cert5))], ?_, by simp, ?_, hworld version, ?_, hconf⟩
    · rw [heq]
      split <;> simp [Res.world]
    · intro t c1 w1 h
      rw [heq] at h
      split at h <;> simp at h
      exact h.1.symm
    · rw [EnableSessionSSL_eq]
      exact hworld []
  | failed e1 =>
    rw [h1] at heq
    simp only at heq
    refine ⟨handshakeConfig version cert5,
      [Event.handshake (NetConn.tlsClient w.nextId conn.sslConnect
        (handshakeConfig version cert5))], ?_, by simp, ?_, hworld version, ?_, hconf⟩
    · rw [heq]
      split <;> simp [Res.world]
    · intro t c1 w1 h
      rw [heq] at h
      split at h <;> simp at h
      exact h.1.symm
    · rw [EnableSessionSSL_eq]
      exact hworld []

/-- C7 as amended, at a concrete session: the preference `[11]` on `envLinux`. -/
theorem handshake_version_range_witness :
    ∃ conf evs,
      (createTLSClient envLinux connOpened worldOpened [11] pairRecord0).world.trace
        = worldOpened.trace ++ Event.handshake (NetConn.tlsClient 1 sock0 conf) :: evs
      ∧ conf.MinVersion = 0x0302 ∧ conf.MaxVersion = 0x0304 := by
  obtain ⟨conf, evs, h1, _, _, _, _, _, _, _, h9, _, _⟩ :=
    handshake_version_range envLinux connOpened worldOpened [11] pairRecord0 cert0 rfl
  exact ⟨conf, evs, h1, h9 11 [] rfl (by decide)⟩

/-- C7 as stated fails: on `envLinux` the configuration built for the empty
preference (also by `EnableSessionSSL`) has `MinVersion = MaxVersion = 0`, while
the one built for `[10]` has both at TLS 1.1 (0x0302 = 770); the two differ. -/
theorem empty_preference_not_pinned :
    (EnableSessionSSLWithVersion envLinux connOpened worldOpened [] pairRecord0).conn.sslConnect
      = NetConn.tlsClient 1 sock0
          { InsecureSkipVerify := true, Certificates := [cert0],
            ClientAuth := ClientAuthType.NoClientCert, MinVersion := 0, MaxVersion := 0 }
    ∧ (EnableSessionSSL envLinux connOpened worldOpened pairRecord0).conn.sslConnect
      = NetConn.tlsClient 1 sock0
          { InsecureSkipVerify := true, Certificates := [cert0],
            ClientAuth := ClientAuthType.NoClientCert, MinVersion := 0, MaxVersion := 0 }
    ∧ (EnableSessionSSLWithVersion envLinux connOpened worldOpened [10] pairRecord0).conn.sslConnect
      = NetConn.tlsClient 1 sock0
          { InsecureSkipVerify := true, Certificates := [cert0],
            ClientAuth := ClientAuthType.NoClientCert, MinVersion := 770, MaxVersion := 770 }
    ∧ (EnableSessionSSLWithVersion envLinux connOpened worldOpened [] pairRecord0).conn.sslConnect
      ≠ (EnableSessionSSLWithVersion envLinux connOpened worldOpened [10]
          pairRecord0).conn.sslConnect := by
  decide

/-- C8: on a session with a secure handle whose writer keeps the `io.Writer`
contract, for every byte sequence: if the write to the secure handle returns an
error, or writes fewer bytes than requested, `Send` writes, then closes the secure
handle, and returns the error of the write to the caller; if the write returns no
error and writes all bytes, `Send` returns nil and its only external operation is
that write.  Every write `Send` performs is the write of the given bytes to the
secure slot, so none goes to a plain handle that is another object. -/
theorem send_closes_on_failed_or_short_write (env : Env) (conn : DeviceConnection)
    (w : World) (bytes : Bytes) (hs : conn.sslConnect ≠ NetConn.nil)
    (hc : env.WriterContract) :
    ((env.Write w.trace conn.sslConnect bytes).2 ≠ none
        ∨ (env.Write w.trace conn.sslConnect bytes).1 < bytes.length →
      ∃ e, (env.Write w.trace conn.sslConnect bytes).2 = some e
        ∧ Send env conn w bytes
          = Res.ret (some e) conn
              { trace := w.trace ++ [Event.write conn.sslConnect bytes,
                  Event.close conn.sslConnect],
                nextId := w.nextId })
    ∧ ((env.Write w.trace conn.sslConnect bytes).2 = none
        ∧ (env.Write w.trace conn.sslConnect bytes).1 = bytes.length →
      Send env conn w bytes
        = Res.ret none conn
            { trace := w.trace ++ [Event.write conn.sslConnect bytes], nextId := w.nextId })
    ∧ (∀ evs, (Send env conn w bytes).world.trace = w.trace ++ evs →
        (∀ c b, Event.write c b ∈ evs → c = conn.sslConnect ∧ b = bytes)
        ∧ (conn.unencryptedConnect ≠ conn.sslConnect →
            ∀ b, Event.write conn.unencryptedConnect b ∉ evs)) := by
  have hcases := Send_cases env conn w bytes hs
  refine ⟨?_, ?_, ?_⟩
  · intro h
    rcases hcases with ⟨e, he, hr⟩ | ⟨hn, _⟩
    · exact ⟨e, he, hr⟩
    · rcases h with h | h
      · exact absurd hn h
      · exact absurd hn (hc w.trace conn.sslConnect bytes h)
  · intro h
    rcases hcases with ⟨e, he, _⟩ | ⟨_, hr⟩
    · rw [h.1] at he; cases he
    · exact hr
  · intro evs hevs
    have hw : ∀ c b, Event.write c b ∈ evs → c = conn.sslConnect ∧ b = bytes := by
      intro c b hmem
      rcases hcases with ⟨e, _, hr⟩ | ⟨_, hr⟩
      · rw [hr] at hevs
        simp only [Res.world] at hevs
        have he := (List.append_cancel_left hevs).symm
        subst he
        simpa using hmem
      · rw [hr] at hevs
        simp only [Res.world] at hevs
        have he := (List.append_cancel_left hevs).symm
        subst he
        simpa using hmem
    refine ⟨hw, ?_⟩
    intro hne b hmem
    exact hne (hw _ _ hmem).1

/-- C8 at concrete sessions: on `envBrokenPipe` the write of three bytes to the
secure handle `tls1` writes none and fails, and `Send` closes `tls1` and returns
the error; on `envLinux` the write succeeds and nothing is closed. -/
theorem send_closes_on_failed_or_short_write_witness :
    (∃ e, (envBrokenPipe.Write worldUpgraded.trace connUpgraded.sslConnect [1, 2, 3]).2 = some e
      ∧ Send envBrokenPipe connUpgraded worldUpgraded [1, 2, 3]
        = Res.ret (some e) connUpgraded
            { trace := worldUpgraded.trace ++ [Event.write connUpgraded.sslConnect [1, 2, 3],
                Event.close connUpgraded.sslConnect],
              nextId := worldUpgraded.nextId })
    ∧ Send envLinux connUpgraded worldUpgraded [1, 2, 3]
      = Res.ret none connUpgraded
          { trace := worldUpgraded.trace ++ [Event.write connUpgraded.sslConnect [1, 2, 3]],
            nextId := worldUpgraded.nextId } :=
  ⟨(send_closes_on_failed_or_short_write envBrokenPipe connUpgraded worldUpgraded [1, 2, 3]
      (by decide) (fun _ _ _ _ => by simp [envBrokenPipe, envLinux])).1
      (Or.inr (by decide)),
   (send_closes_on_failed_or_short_write envLinux connUpgraded worldUpgraded [1, 2, 3]
      (by decide) (fun _ _ _ h => absurd h (by simp [envLinux]))).2.1
      ⟨rfl, rfl⟩⟩

/-- C9, as the code has it: in every state `Close` returns and leaves both slots
as they are.  When the slot `sslConnect` is nil it performs no external operation
and returns nil.  When it is not nil its one external operation is the close of
the handle in that slot, and it returns `tool.NewErrorPrint(tool.ErrUnknown, "",
err)` when that close fails with `err` and nil when it succeeds, so an error iff
the close fails; no close is ever addressed to another handle.  The slot
`sslConnect` is not only the encrypted stream: right after a successful open it
holds the dialled socket, which `Close` then closes; and after a successful
upgrade of a session with a handle, the handle kept in `unencryptedConnect` is the
transport of the TLS client in `sslConnect` and is closed with it. -/
theorem close_closes_secure_slot (env : Env) (conn : DeviceConnection) (w : World) :
    (Close env conn w).conn = conn
    ∧ (∃ r w1, Close env conn w = Res.ret r conn w1)
    ∧ (conn.sslConnect = NetConn.nil → Close env conn w = Res.ret none conn w)
    ∧ (conn.sslConnect ≠ NetConn.nil →
        ∃ r, Close env conn w
            = Res.ret r conn
                { trace := w.trace ++ [Event.close conn.sslConnect], nextId := w.nextId }
          ∧ (r ≠ none ↔ env.Close w.trace conn.sslConnect ≠ none)
          ∧ (∀ err, env.Close w.trace conn.sslConnect = some err →
              r = some (NewErrorPrint ToolErr.ErrUnknown "" err)))
    ∧ (∀ evs, (Close env conn w).world.trace = w.trace ++ evs →
        ∀ ev ∈ evs, ev = Event.close conn.sslConnect)
    ∧ (∀ w0, NewDeviceConnection env w0 = Res.ret none conn w →
        ∃ network address r,
          conn.sslConnect = NetConn.sock w0.nextId network address
          ∧ conn.unencryptedConnect = NetConn.nil
          ∧ Close env conn w
            = Res.ret r conn
                { trace := w.trace ++ [Event.close (NetConn.sock w0.nextId network address)],
                  nextId := w.nextId })
    ∧ (∀ conn0 w0 version pairRecord,
        (EnableSessionSSLWithVersion env conn0 w0 version pairRecord = Res.ret none conn w
          ∨ EnableSessionSSL env conn0 w0 pairRecord = Res.ret none conn w) →
        conn0.sslConnect ≠ NetConn.nil →
        conn.unencryptedConnect = conn0.sslConnect
        ∧ conn.unencryptedConnect ∈ conn.sslConnect.closedWith
        ∧ ∃ r, Close env conn w
            = Res.ret r conn
                { trace := w.trace ++ [Event.close conn.sslConnect], nextId := w.nextId }) := by
  have hself : ∀ c : NetConn, c ≠ NetConn.nil → c ∈ c.closedWith := by
    intro c hc
    cases c with
    | nil => exact absurd rfl hc
    | sock id network address => simp [NetConn.closedWith]
    | tlsClient id transport conf => simp [NetConn.closedWith]
  have hsome : conn.sslConnect ≠ NetConn.nil →
      ∃ r, Close env conn w
          = Res.ret r conn
              { trace := w.trace ++ [Event.close conn.sslConnect], nextId := w.nextId }
        ∧ (r ≠ none ↔ env.Close w.trace conn.sslConnect ≠ none)
        ∧ (∀ err, env.Close w.trace conn.sslConnect = some err →
            r = some (NewErrorPrint ToolErr.ErrUnknown "" err)) := by
    intro hn
    rcases Close_eq env conn w with ⟨h, _⟩ | ⟨_, hr⟩
    · exact absurd h hn
    · refine ⟨_, hr, ?_, ?_⟩
      · cases env.Close w.trace conn.sslConnect <;> simp
      · intro err he
        simp [he]
  have hopen : ∀ w0, NewDeviceConnection env w0 = Res.ret none conn w →
      ∃ network address, conn.sslConnect = NetConn.sock w0.nextId network address
        ∧ conn.unencryptedConnect = NetConn.nil := by
    intro w0 h
    rcases connectSocket_cases env {} w0 with
      ⟨_, _, _, _, hr⟩ | ⟨network, address, _, ⟨err, _, hr⟩ | ⟨_, hr⟩⟩
    · rw [NewDeviceConnection, hr] at h; simp at h
    · rw [NewDeviceConnection, hr] at h; simp at h
    · rw [NewDeviceConnection, hr] at h
      simp only [Res.ret.injEq, true_and] at h
      exact ⟨network, address, by rw [← h.1], by rw [← h.1]⟩
  refine ⟨Close_conn env conn w, ?_, ?_, hsome, ?_, ?_, ?_⟩
  · rcases Close_eq env conn w with ⟨_, hr⟩ | ⟨_, hr⟩ <;> exact ⟨_, _, hr⟩
  · intro hn
    rcases Close_eq env conn w with ⟨_, hr⟩ | ⟨h, _⟩
    · exact hr
    · exact absurd hn h
  · intro evs hevs
    rcases Close_eq env conn w with ⟨_, hr⟩ | ⟨_, hr⟩
    · rw [hr] at hevs
      simp only [Res.world] at hevs
      have he : evs = [] := by
        have := congrArg List.length hevs
        simpa using this
      subst he
      simp
    · rw [hr] at hevs
      simp only [Res.world] at hevs
      have he : evs = [Event.close conn.sslConnect] := (List.append_cancel_left hevs).symm
      subst he
      intro ev hev
      simpa using hev
  · intro w0 h
    obtain ⟨network, address, hs, hu⟩ := hopen w0 h
    obtain ⟨r, hr, _, _⟩ := hsome (by rw [hs]; simp)
    rw [hs] at hr
    exact ⟨network, address, r, hs, hu, hr⟩
  · intro conn0 w0 version pairRecord h hn0
    have h1 : ∃ version1, EnableSessionSSLWithVersion env conn0 w0 version1 pairRecord
        = Res.ret none conn w := by
      rcases h with h | h
      · exact ⟨version, h⟩
      · exact ⟨[], by rw [← EnableSessionSSL_eq]; exact h⟩
    obtain ⟨version1, h2⟩ := h1
    obtain ⟨cert5, _, hc, _⟩ :=
      EnableSessionSSLWithVersion_success env conn0 w0 version1 pairRecord conn w h2
    have hs : conn.sslConnect
        = NetConn.tlsClient w0.nextId conn0.sslConnect (handshakeConfig version1 cert5) := by
      rw [hc]
    have hu : conn.unencryptedConnect = conn0.sslConnect := by rw [hc]
    obtain ⟨r, hr, _, _⟩ := hsome (by rw [hs]; simp)
    refine ⟨hu, ?_, r, hr⟩
    rw [hs, hu]
    simp only [NetConn.closedWith, List.mem_cons]
    exact Or.inr (hself _ hn0)

/-- C9 as amended, at concrete sessions: a failing close of the TLS client, a
session whose slot `sslConnect` is nil, and the freshly opened session, whose
dialled socket `Close` closes. -/
theorem close_closes_secure_slot_witness :
    (∃ r, Close envCloseFails connUpgraded worldUpgraded
        = Res.ret r connUpgraded
            { trace := worldUpgraded.trace ++ [Event.close tls1], nextId := 2 }
      ∧ r = some (NewErrorPrint ToolErr.ErrUnknown ""
          (GoError.lib "use of closed network connection")))
    ∧ Close envLinux connDowngraded worldUpgraded = Res.ret none connDowngraded worldUpgraded
    ∧ (∃ network address r, connOpened.sslConnect = NetConn.sock 0 network address
        ∧ Close envLinux connOpened worldOpened
          = Res.ret r connOpened
              { trace := worldOpened.trace ++ [Event.close (NetConn.sock 0 network address)],
                nextId := 1 })
    ∧ connUpgraded.unencryptedConnect ∈ connUpgraded.sslConnect.closedWith := by
  refine ⟨?_, ?_, ?_, ?_⟩
  · obtain ⟨r, h1, _, h3⟩ :=
      (close_closes_secure_slot envCloseFails connUpgraded worldUpgraded).2.2.2.1 (by decide)
    exact ⟨r, h1, h3 _ rfl⟩
  · exact (close_closes_secure_slot envLinux connDowngraded worldUpgraded).2.2.1 (by decide)
  · obtain ⟨network, address, r, h1, _, h3⟩ :=
      (close_closes_secure_slot envLinux connOpened worldOpened).2.2.2.2.2.1 world0
        (by decide)
    exact ⟨network, address, r, h1, h3⟩
  · exact ((close_closes_secure_slot envLinux connUpgraded worldUpgraded).2.2.2.2.2.2
      connOpened worldOpened [11] pairRecord0 (Or.inl (by decide)) (by decide)).2.1

/-- C9 as stated fails.  On `envLinux`, after an open with no upgrade (no
encrypted stream exists) `Close` does perform a close, that of the dialled socket
`sock0`; and after an upgrade `Close` closes the TLS client `tls1`, and with it
its transport `sock0`, the handle in the plain slot `unencryptedConnect`. -/
theorem close_closes_dialled_socket :
    NewDeviceConnection envLinux world0 = Res.ret none connOpened worldOpened
    ∧ Close envLinux connOpened worldOpened
      = Res.ret none connOpened
          { trace := worldOpened.trace ++ [Event.close sock0], nextId := 1 }
    ∧ EnableSessionSSLWithVersion envLinux connOpened worldOpened [11] pairRecord0
      = Res.ret none connUpgraded worldUpgraded
    ∧ connUpgraded.unencryptedConnect = sock0
    ∧ Close envLinux connUpgraded worldUpgraded
      = Res.ret none connUpgraded
          { trace := worldUpgraded.trace ++ [Event.close tls1], nextId := 2 }
    ∧ tls1.closedWith = [tls1, sock0]
    ∧ connUpgraded.unencryptedConnect ∈ tls1.closedWith := by
  decide

/-- C10: an upgrade should run its handshake over the handle `GetConn` returned
just before the call.  Evaluated on `envLinux` after open, upgrade and
`DisableSessionSSL`: `GetConn` returns the plain handle `sock0`, but the next
upgrade builds its TLS client over nil, not over `sock0`, and the handshake on it
panics. -/
theorem upgrade_after_disable_wraps_nil :
    NewDeviceConnection envLinux world0 = Res.ret none connOpened worldOpened
    ∧ EnableSessionSSLWithVersion envLinux connOpened worldOpened [11] pairRecord0
      = Res.ret none connUpgraded worldUpgraded
    ∧ DisableSessionSSL connUpgraded worldUpgraded = Res.ret () connDowngraded worldUpgraded
    ∧ GetConn connDowngraded = sock0
    ∧ EnableSessionSSLWithVersion envLinux connDowngraded worldUpgraded [11] pairRecord0
      = Res.panic connDowngraded
          { trace := worldUpgraded.trace ++
              [Event.handshake (NetConn.tlsClient 2 NetConn.nil (handshakeConfig [11] cert0))],
            nextId := 3 }
    ∧ NetConn.tlsClient 2 NetConn.nil (handshakeConfig [11] cert0)
      ≠ NetConn.tlsClient 2 (GetConn connDowngraded) (handshakeConfig [11] cert0) := by
  decide

end Conn
